import Mathlib

/-
Verification of the FinanceTracker monthly-aggregation core.

The development shallowly embeds the in-memory storage backend
(MemStorage), the monthly summary recomputation helper
(generateMonthlySummary), the statement text extractor
(extractTransactions) and the relevant HTTP route handlers.

Modelling conventions:
 - JavaScript Map objects (insertion ordered, unique keys) are embedded
   as association lists with Map set/get/delete semantics.
 - Decimal amounts, which the code shuttles between JS numbers and
   decimal strings in a value-preserving way, are embedded as rationals.
 - Timestamps (new Date() used for createdAt / lastUpdated) are embedded
   as an explicit clock value passed to each operation that reads the
   wall clock.
 - Date-only strings "YYYY-MM-DD" are embedded as year/month/day
   triples; JS Date parsing and component extraction is modelled in UTC.
-/

namespace FinanceTracker

/-! ## Kernel-evaluable rational arithmetic

The JS number arithmetic of the source is embedded as exact rational
arithmetic. The four operations below are plain unfoldable definitions
(so concrete runs of the model can be checked by the kernel), and each
is proved equal to the corresponding field operation on ℚ, which the
symbolic proofs use. -/

/-- Rational addition, as an unfoldable definition. -/
def qAdd (a b : Rat) : Rat :=
  Rat.divInt (a.num * b.den + b.num * a.den) (a.den * b.den)

/-- Rational subtraction, as an unfoldable definition. -/
def qSub (a b : Rat) : Rat := qAdd a (-b)

/-- Rational multiplication, as an unfoldable definition. -/
def qMul (a b : Rat) : Rat := Rat.divInt (a.num * b.num) (a.den * b.den)

/-- Rational division, as an unfoldable definition. -/
def qDiv (a b : Rat) : Rat := Rat.divInt (a.num * b.den) (a.den * b.num)

/-! ## JS Map embedding (number keys and string keys) -/

/-- Lookup in a JS Map with number keys: value of the entry whose key
matches, if any. -/
def jsGet {α : Type} (m : List (Nat × α)) (k : Nat) : Option α :=
  (m.find? (fun p => p.1 == k)).map (fun p => p.2)

/-- JS Map.set semantics: if the key is present, replace the value in
place (keeping insertion order); otherwise append a new entry. -/
def jsSet {α : Type} (m : List (Nat × α)) (k : Nat) (v : α) : List (Nat × α) :=
  if m.any (fun p => p.1 == k) then
    m.map (fun p => if p.1 == k then (k, v) else p)
  else
    m ++ [(k, v)]

/-- JS Map.delete semantics: remove the entry with the given key. -/
def jsDeleteK {α : Type} (m : List (Nat × α)) (k : Nat) : List (Nat × α) :=
  m.filter (fun p => !(p.1 == k))

/-- JS Map.has / the boolean returned by Map.delete. -/
def jsHas {α : Type} (m : List (Nat × α)) (k : Nat) : Bool :=
  m.any (fun p => p.1 == k)

/-- Array.from(map.values()) in insertion order. -/
def jsValues {α : Type} (m : List (Nat × α)) : List α :=
  m.map (fun p => p.2)

/-- Lookup in a JS Map with string keys. -/
def jsStrGet (m : List (String × Rat)) (k : String) : Option Rat :=
  (m.find? (fun p => p.1 == k)).map (fun p => p.2)

/-- JS Map.set for string keys. -/
def jsStrSet (m : List (String × Rat)) (k : String) (v : Rat) : List (String × Rat) :=
  if m.any (fun p => p.1 == k) then
    m.map (fun p => if p.1 == k then (k, v) else p)
  else
    m ++ [(k, v)]

/-! ## Data model (shared/schema.ts) -/

/-- A calendar date with no time component, as produced by
date.toISOString().split('T')[0] on a UTC date. -/
structure DateOnly where
  year : Nat
  month : Nat
  day : Nat
deriving DecidableEq

/-- A JS Date value: calendar date plus time-of-day components.
Inputs to createTransaction / updateTransaction carry one of these
(z.coerce.date): the stored date keeps only the date part. -/
structure JsDate where
  year : Nat
  month : Nat
  day : Nat
  hour : Nat
  minute : Nat
  second : Nat
deriving DecidableEq

/-- date.toISOString().split('T')[0]: drop the time components. -/
def jsDateToDateOnly (d : JsDate) : DateOnly :=
  ⟨d.year, d.month, d.day⟩

/-- users table row. -/
structure User where
  id : Nat
  username : String
  password : String
deriving DecidableEq

/-- transactions table row, as stored by MemStorage (date already
normalized to a date-only string, amount held as a decimal string whose
value is the rational below). -/
structure Transaction where
  id : Nat
  userId : Nat
  date : DateOnly
  description : String
  category : String
  amount : Rat
  type : String
  pdfSource : Option String
  createdAt : Nat
deriving DecidableEq

/-- InsertTransaction: the validated request payload
(insertTransactionSchema), before id/userId/createdAt are attached. -/
structure InsertTransaction where
  date : JsDate
  description : String
  category : String
  amount : Rat
  type : String
  pdfSource : Option String
deriving DecidableEq

/-- Partial InsertTransaction (insertTransactionSchema.partial()):
every field optional; an absent field (undefined in TS) is none.
For pdfSource, some none models an explicitly supplied null. -/
structure UpdateTransactionData where
  date : Option JsDate
  description : Option String
  category : Option String
  amount : Option Rat
  type : Option String
  pdfSource : Option (Option String)
deriving DecidableEq

/-- monthly_summaries table row. -/
structure MonthlySummary where
  id : Nat
  userId : Nat
  year : Nat
  month : Nat
  totalIncome : Rat
  totalExpenses : Rat
  netBalance : Rat
  lastUpdated : Nat
deriving DecidableEq

/-- InsertMonthlySummary: the payload of createOrUpdateMonthlySummary. -/
structure InsertMonthlySummary where
  year : Nat
  month : Nat
  totalIncome : Rat
  totalExpenses : Rat
  netBalance : Rat
deriving DecidableEq

/-- category_breakdowns table row. -/
structure CategoryBreakdown where
  id : Nat
  summaryId : Nat
  category : String
  amount : Rat
  percentage : Rat
deriving DecidableEq

/-- InsertCategoryBreakdown: the payload of updateCategoryBreakdowns. -/
structure InsertCategoryBreakdown where
  category : String
  amount : Rat
  percentage : Rat
deriving DecidableEq

/-- The fixed category enumeration from shared/schema.ts. -/
def categories : List String :=
  ["Housing", "Transportation", "Food", "Utilities", "Healthcare",
   "Entertainment", "Education", "Shopping", "Income", "Other"]

/-! ## MemStorage state -/

/-- The four Maps and four id counters of MemStorage. -/
structure MemStorage where
  users : List (Nat × User)
  transactions : List (Nat × Transaction)
  monthlySummaries : List (Nat × MonthlySummary)
  categoryBreakdowns : List (Nat × CategoryBreakdown)
  userId : Nat
  transactionId : Nat
  summaryId : Nat
  breakdownId : Nat
deriving DecidableEq

/-- Math.abs. -/
def mathAbs (q : Rat) : Rat :=
  if q < 0 then -q else q

/-! ## MemStorage operations -/

/-- MemStorage.getTransactionsByMonth: filter all transaction values by
exact user match and by the parsed date having the requested year and
0-based month (getMonth() === month - 1), modelled in UTC. -/
def getTransactionsByMonth (s : MemStorage) (userId year month : Nat) : List Transaction :=
  (jsValues s.transactions).filter (fun t =>
    t.userId == userId &&
    t.date.year == year &&
    decide ((t.date.month : Int) - 1 = (month : Int) - 1))

/-- MemStorage.getTransactionById. -/
def getTransactionById (s : MemStorage) (id : Nat) : Option Transaction :=
  jsGet s.transactions id

/-- MemStorage.createTransaction: take a fresh id from the counter,
normalize the date to a date-only string and the amount to its decimal
string (value preserving), stamp createdAt with the clock. -/
def createTransaction (s : MemStorage) (now : Nat) (userId : Nat)
    (ins : InsertTransaction) : Transaction × MemStorage :=
  let id := s.transactionId
  let t : Transaction :=
    { id := id
      userId := userId
      date := jsDateToDateOnly ins.date
      type := ins.type
      description := ins.description
      category := ins.category
      amount := ins.amount
      pdfSource := ins.pdfSource
      createdAt := now }
  (t, { s with transactions := jsSet s.transactions id t, transactionId := id + 1 })

/-- MemStorage.updateTransaction: if the id is absent return undefined
and leave the store untouched; otherwise copy the stored transaction and
overwrite exactly the supplied fields (with date/amount conversions),
then store the result under the same id. -/
def updateTransaction (s : MemStorage) (id : Nat)
    (u : UpdateTransactionData) : Option Transaction × MemStorage :=
  match jsGet s.transactions id with
  | none => (none, s)
  | some t =>
    let t1 := match u.date with
      | some d => { t with date := jsDateToDateOnly d }
      | none => t
    let t2 := match u.amount with
      | some a => { t1 with amount := a }
      | none => t1
    let t3 := match u.description with
      | some d => { t2 with description := d }
      | none => t2
    let t4 := match u.category with
      | some c => { t3 with category := c }
      | none => t3
    let t5 := match u.type with
      | some ty => { t4 with type := ty }
      | none => t4
    let t6 := match u.pdfSource with
      | some p => { t5 with pdfSource := p }
      | none => t5
    (some t6, { s with transactions := jsSet s.transactions id t6 })

/-- MemStorage.deleteTransaction. -/
def deleteTransaction (s : MemStorage) (id : Nat) : Bool × MemStorage :=
  (jsHas s.transactions id, { s with transactions := jsDeleteK s.transactions id })

/-- MemStorage.getMonthlySummaryByMonth: first summary value matching
user, year and month. -/
def getMonthlySummaryByMonth (s : MemStorage) (userId year month : Nat) :
    Option MonthlySummary :=
  (jsValues s.monthlySummaries).find? (fun v =>
    v.userId == userId && v.year == year && v.month == month)

/-- MemStorage.createOrUpdateMonthlySummary: upsert keyed on
(user, year, month); on update overwrite the numeric fields and refresh
lastUpdated keeping the existing id, on insert take a fresh id. -/
def createOrUpdateMonthlySummary (s : MemStorage) (now : Nat) (userId : Nat)
    (d : InsertMonthlySummary) : MonthlySummary × MemStorage :=
  match getMonthlySummaryByMonth s userId d.year d.month with
  | some existing =>
    let updated : MonthlySummary :=
      { existing with
        year := d.year
        month := d.month
        totalIncome := d.totalIncome
        totalExpenses := d.totalExpenses
        netBalance := d.netBalance
        lastUpdated := now }
    (updated, { s with monthlySummaries := jsSet s.monthlySummaries existing.id updated })
  | none =>
    let id := s.summaryId
    let summary : MonthlySummary :=
      { id := id
        userId := userId
        year := d.year
        month := d.month
        totalIncome := d.totalIncome
        totalExpenses := d.totalExpenses
        netBalance := d.netBalance
        lastUpdated := now }
    (summary, { s with monthlySummaries := jsSet s.monthlySummaries id summary,
                       summaryId := id + 1 })

/-- MemStorage.createCategoryBreakdown: fresh id from the counter. -/
def createCategoryBreakdown (s : MemStorage) (summaryId : Nat)
    (b : InsertCategoryBreakdown) : CategoryBreakdown × MemStorage :=
  let id := s.breakdownId
  let bd : CategoryBreakdown :=
    { id := id
      summaryId := summaryId
      category := b.category
      amount := b.amount
      percentage := b.percentage }
  (bd, { s with categoryBreakdowns := jsSet s.categoryBreakdowns id bd,
                breakdownId := id + 1 })

/-- The loop body of updateCategoryBreakdowns:
results.push(createCategoryBreakdown(summaryId, breakdown)). -/
def insertBreakdownStep (summaryId : Nat)
    (acc : List CategoryBreakdown × MemStorage) (b : InsertCategoryBreakdown) :
    List CategoryBreakdown × MemStorage :=
  let r := createCategoryBreakdown acc.2 summaryId b
  (acc.1 ++ [r.1], r.2)

/-- MemStorage.updateCategoryBreakdowns: delete every existing breakdown
whose summaryId matches (each deleted through Map.delete by its id
field), then insert the replacements in order. -/
def updateCategoryBreakdowns (s : MemStorage) (summaryId : Nat)
    (bds : List InsertCategoryBreakdown) : List CategoryBreakdown × MemStorage :=
  let toDelete := (jsValues s.categoryBreakdowns).filter (fun b => b.summaryId == summaryId)
  let s0 := { s with
    categoryBreakdowns := toDelete.foldl (fun m b => jsDeleteK m b.id) s.categoryBreakdowns }
  bds.foldl (insertBreakdownStep summaryId) ([], s0)

/-- The MemStorage constructor: empty maps, counters at 1, then a demo
user is created (consuming user id 1). -/
def emptyMemStorage : MemStorage :=
  { users := [(1, { id := 1, username := "demo", password := "password" })]
    transactions := []
    monthlySummaries := []
    categoryBreakdowns := []
    userId := 2
    transactionId := 1
    summaryId := 1
    breakdownId := 1 }

/-! ## Aggregation engine (generateMonthlySummary in routes.ts) -/

/-- Sum of amounts over the income transactions
(reduce((sum, t) => sum + Number(t.amount), 0) after filtering). -/
def totalIncomeOf (ts : List Transaction) : Rat :=
  (ts.filter (fun t => t.type == "income")).foldl (fun acc t => qAdd acc t.amount) 0

/-- Sum of absolute amounts over the expense transactions. -/
def totalExpensesOf (ts : List Transaction) : Rat :=
  (ts.filter (fun t => t.type == "expense")).foldl (fun acc t => qAdd acc (mathAbs t.amount)) 0

/-- The per-category expense total: sum of absolute amounts of the
expense transactions in the given category. -/
def catExpense (c : String) (ts : List Transaction) : Rat :=
  ((ts.filter (fun t => t.type == "expense" && t.category == c)).map
    (fun t => mathAbs t.amount)).sum

/-- The per-category expense Map of generateMonthlySummary: a Map
seeded with every fixed category at zero, then each expense transaction
adds its absolute amount onto its category entry. -/
def expensesByCategory (txns : List Transaction) : List (String × Rat) :=
  let seeded := categories.foldl (fun mp c => jsStrSet mp c 0) []
  (txns.filter (fun t => t.type == "expense")).foldl
    (fun mp t => jsStrSet mp t.category
      (qAdd ((jsStrGet mp t.category).getD 0) (mathAbs t.amount)))
    seeded

/-- The breakdown payload list of generateMonthlySummary: the strictly
positive entries of the per-category map, each with its percentage of
the total expenses. -/
def breakdownPayloads (txns : List Transaction) : List InsertCategoryBreakdown :=
  ((expensesByCategory txns).filter (fun p => decide (0 < p.2))).map
    (fun p => ({ category := p.1, amount := p.2,
                 percentage := qMul (qDiv p.2 (totalExpensesOf txns)) 100 } :
        InsertCategoryBreakdown))

/-- generateMonthlySummary: fetch the month's transactions; if none,
return null without writing; otherwise sum income and expenses, upsert
the summary, rebuild the per-category expense map, and replace the
summary's breakdowns with the positive categories. -/
def generateMonthlySummary (s : MemStorage) (now : Nat)
    (userId year month : Nat) : Option MonthlySummary × MemStorage :=
  let txns := getTransactionsByMonth s userId year month
  if txns.isEmpty then (none, s) else
  let cu := createOrUpdateMonthlySummary s now userId
    { year := year, month := month, totalIncome := totalIncomeOf txns,
      totalExpenses := totalExpensesOf txns,
      netBalance := qSub (totalIncomeOf txns) (totalExpensesOf txns) }
  let ub := updateCategoryBreakdowns cu.2 cu.1.id (breakdownPayloads txns)
  (some cu.1, ub.2)

/-- The breakdown rows currently stored for a given summary id. -/
def breakdownsFor (s : MemStorage) (sid : Nat) : List CategoryBreakdown :=
  (jsValues s.categoryBreakdowns).filter (fun b => b.summaryId == sid)

/-! ## Route handlers (routes.ts), for the demo user id 1 -/

/-- POST /api/transactions: create, then recompute the month of the
created transaction's date. Returns the HTTP status and the new state. -/
def postTransactionRoute (s : MemStorage) (now : Nat)
    (payload : InsertTransaction) : Nat × MemStorage :=
  let r := createTransaction s now 1 payload
  let s2 := (generateMonthlySummary r.2 now 1 r.1.date.year r.1.date.month).2
  (201, s2)

/-- PUT /api/transactions/:id: 404 if the id is unknown; otherwise apply
the partial update and recompute the month of the updated transaction's
date (falling back to the old date), for the transaction's owner. -/
def putTransactionRoute (s : MemStorage) (now : Nat) (id : Nat)
    (payload : UpdateTransactionData) : Nat × MemStorage :=
  match getTransactionById s id with
  | none => (404, s)
  | some t =>
    let r := updateTransaction s id payload
    let d := match r.1 with
      | some u => u.date
      | none => t.date
    let s2 := (generateMonthlySummary r.2 now t.userId d.year d.month).2
    (200, s2)

/-- DELETE /api/transactions/:id: 404 if unknown; otherwise delete and
recompute the month of the deleted transaction's date. -/
def deleteTransactionRoute (s : MemStorage) (now : Nat) (id : Nat) :
    Nat × MemStorage :=
  match getTransactionById s id with
  | none => (404, s)
  | some t =>
    let r := deleteTransaction s id
    if r.1 then
      let s2 := (generateMonthlySummary r.2 now t.userId t.date.year t.date.month).2
      (204, s2)
    else
      (500, r.2)

/-! ## Calendar helpers (for the month-range specification) -/

/-- Leap year rule used by the JS Date type. -/
def isLeapYear (y : Nat) : Bool :=
  (y % 4 == 0 && y % 100 != 0) || (y % 400 == 0)

/-- Number of days of a month, as computed by new Date(year, month, 0). -/
def daysInMonth (y m : Nat) : Nat :=
  if m == 2 then (if isLeapYear y then 29 else 28)
  else if m == 4 || m == 6 || m == 9 || m == 11 then 30
  else 31

/-- A well-formed calendar date. -/
def ValidDate (d : DateOnly) : Prop :=
  1 ≤ d.month ∧ d.month ≤ 12 ∧ 1 ≤ d.day ∧ d.day ≤ daysInMonth d.year d.month

/-- Chronological order on date-only values. -/
def dateLE (a b : DateOnly) : Prop :=
  a.year < b.year ∨
  (a.year = b.year ∧ (a.month < b.month ∨ (a.month = b.month ∧ a.day ≤ b.day)))

/-- First day of a month. -/
def firstDayOfMonth (y m : Nat) : DateOnly := ⟨y, m, 1⟩

/-- Last day of a month. -/
def lastDayOfMonth (y m : Nat) : DateOnly := ⟨y, m, daysInMonth y m⟩

instance (d : DateOnly) : Decidable (ValidDate d) := by
  unfold ValidDate
  infer_instance

instance (a b : DateOnly) : Decidable (dateLE a b) := by
  unfold dateLE
  infer_instance

/-! ## Statement importer (extractTransactions in routes.ts)

The regular expressions of the source operate on JS strings; they are
embedded as structurally recursive character-list scanners so that
concrete runs kernel-evaluate. -/

/-- text.split two-char scanner: split a character list at newline
characters (JS String.prototype.split semantics). -/
def splitOnNl : List Char → List (List Char)
  | [] => [[]]
  | c :: rest =>
    let r := splitOnNl rest
    if c == '\n' then [] :: r
    else
      match r with
      | [] => [[c]]
      | h :: t => (c :: h) :: t

/-- JS whitespace for trim purposes (space, tab, carriage return,
newline). -/
def isWs (c : Char) : Bool :=
  c == ' ' || c == '\t' || c == '\r' || c == '\n'

/-- String.prototype.trim. -/
def trimChars (l : List Char) : List Char :=
  ((l.dropWhile isWs).reverse.dropWhile isWs).reverse

/-- Lower-case a character code (the /i regex flag). -/
def lowerCode (n : Nat) : Nat :=
  if 65 ≤ n && n ≤ 90 then n + 32 else n

/-- Character codes of a string, lower-cased. -/
def lowerCodes (l : List Char) : List Nat :=
  l.map (fun c => lowerCode c.toNat)

/-- Does the first list start with the second? -/
def startsWithL (needle hay : List Nat) : Bool :=
  match needle, hay with
  | [], _ => true
  | _ :: _, [] => false
  | c :: cs, d :: ds => c == d && startsWithL cs ds

/-- Substring containment on code lists. -/
def containsSub (needle : List Nat) : List Nat → Bool
  | [] => startsWithL needle []
  | c :: rest => startsWithL needle (c :: rest) || containsSub needle rest

/-- Case-insensitive keyword alternation (/kw1|kw2|.../i test). -/
def matchAnyKeyword (line : String) (pats : List String) : Bool :=
  pats.any (fun p => containsSub (lowerCodes p.data) (lowerCodes line.data))

/-- Numeric value of a digit character. -/
def digitVal (c : Char) : Nat := c.toNat - 48

/-- Numeric value of a digit-character run. -/
def digitsToNat (ds : List Char) : Nat :=
  ds.foldl (fun n c => n * 10 + digitVal c) 0

/-- Match of the currency-amount pattern anchored at the head of the
list: a dollar sign, one or more digits, a dot and two digits; on
success return the parsed amount. -/
def dollarAmountAt : List Char → Option Rat
  | '$' :: rest =>
    let ds := rest.takeWhile (fun c => c.isDigit)
    if ds.isEmpty then none
    else
      match rest.drop ds.length with
      | '.' :: d1 :: d2 :: _ =>
        if d1.isDigit && d2.isDigit then
          some (mkRat ((digitsToNat ds) * 100 + (digitVal d1 * 10 + digitVal d2)) 100)
        else none
      | _ => none
  | _ => none

/-- First match of the currency-amount pattern in a line
(regex test + match, scanning left to right). -/
def findDollarAmount : List Char → Option Rat
  | [] => none
  | c :: rest =>
    match dollarAmountAt (c :: rest) with
    | some r => some r
    | none => findDollarAmount rest

/-- A candidate transaction produced by the importer. -/
structure ExtractedTransaction where
  date : JsDate
  description : String
  category : String
  amount : Rat
  type : String
deriving DecidableEq

/-- The keyword table classifying a line into a category, first match
wins, in source order. -/
def classifyCategory (line : String) : String :=
  if matchAnyKeyword line ["rent", "mortgage", "home"] then "Housing"
  else if matchAnyKeyword line ["car", "gas", "uber", "lyft", "transit"] then "Transportation"
  else if matchAnyKeyword line ["grocery", "restaurant", "food"] then "Food"
  else if matchAnyKeyword line ["electric", "water", "phone", "internet"] then "Utilities"
  else if matchAnyKeyword line ["salary", "deposit", "income"] then "Income"
  else "Other"

/-- extractTransactions: split the text into lines, keep the nonblank
ones, and for each line matching the currency-amount pattern emit a
candidate tagged with today (not a statement date), a trimmed
description capped at 100 characters, an income/expense classification
by keyword, and a signed amount. -/
def extractTransactions (today : JsDate) (text : String) : List ExtractedTransaction :=
  let lines := (splitOnNl text.data).filter (fun l => decide (0 < (trimChars l).length))
  lines.filterMap (fun line =>
    match findDollarAmount line with
    | none => none
    | some amount =>
      let isIncome := matchAnyKeyword (String.mk line) ["deposit", "salary", "income", "transfer in"]
      some { date := today
             description := String.mk ((trimChars line).take 100)
             category := classifyCategory (String.mk line)
             amount := if isIncome then amount else -amount
             type := if isIncome then "income" else "expense" })

/-- POST /api/upload-statement, after the PDF text has been extracted:
if no transaction could be extracted respond 400 without touching the
store; otherwise create each candidate (tagged with the upload
provenance marker), recompute the month of the first saved transaction
and respond 201. -/
def uploadStatementRoute (s : MemStorage) (now : Nat) (today : JsDate)
    (text : String) : Nat × MemStorage :=
  let extracted := extractTransactions today text
  if extracted.isEmpty then (400, s)
  else
    let folded := extracted.foldl
      (fun (acc : List Transaction × MemStorage) e =>
        let r := createTransaction acc.2 now 1
          { date := e.date, description := e.description, category := e.category,
            amount := e.amount, type := e.type, pdfSource := some "Uploaded PDF" }
        (acc.1 ++ [r.1], r.2))
      ([], s)
    match folded.1 with
    | [] => (201, folded.2)
    | first :: _ =>
      (201, (generateMonthlySummary folded.2 now 1 first.date.year first.date.month).2)

/-! ## Pure specification-side functions -/

/-- The breakdown values recompute must produce, as a pure function of
the transaction set: one triple (category, amount, percentage) for each
category with strictly positive expense, in the fixed category order. -/
def bdSpec (ts : List Transaction) : List (String × Rat × Rat) :=
  (categories.filter (fun c => decide (0 < catExpense c ts))).map
    (fun c => (c, catExpense c ts, catExpense c ts / totalExpensesOf ts * 100))

/-- Value projection of a stored breakdown row (everything except the
generated row id). -/
def bdValues (b : CategoryBreakdown) : Nat × String × Rat × Rat :=
  (b.summaryId, b.category, b.amount, b.percentage)

/-- Modelled from the spec: "normalizes amount to a fixed-precision
decimal" with the schema precision numeric(10,2); a rational has a
two-decimal representation exactly when 100·q is an integer. -/
def twoDecimal (q : Rat) : Prop := (qMul q 100).den = 1

/-! ## Store well-formedness (representation invariant of the JS Maps) -/

/-- A JS Map holds each row under its own id, ids are unique, and the
id counter is strictly ahead of every key. This holds for every state
the MemStorage constructor and operations can produce. -/
def mapWF {α : Type} (idOf : α → Nat) (m : List (Nat × α)) (counter : Nat) : Prop :=
  (∀ p ∈ m, idOf p.2 = p.1) ∧ (m.map Prod.fst).Nodup ∧ (∀ p ∈ m, p.1 < counter)

/-- Well-formedness of the three row stores the aggregation engine
touches. -/
def WF (s : MemStorage) : Prop :=
  mapWF Transaction.id s.transactions s.transactionId ∧
  mapWF MonthlySummary.id s.monthlySummaries s.summaryId ∧
  mapWF CategoryBreakdown.id s.categoryBreakdowns s.breakdownId

instance {α : Type} (idOf : α → Nat) (m : List (Nat × α)) (counter : Nat) :
    Decidable (mapWF idOf m counter) := by
  unfold mapWF
  infer_instance

instance (s : MemStorage) : Decidable (WF s) := by
  unfold WF
  infer_instance

/-! ## Concrete scenario states (spec section 8 scenarios) -/

/-- Salary income of 1000 dated 2024-03-05. -/
def insMar5 : InsertTransaction :=
  { date := ⟨2024, 3, 5, 0, 0, 0⟩, description := "Salary", category := "Income",
    amount := 1000, type := "income", pdfSource := none }

/-- Grocery expense of 200 (stored with the negative-amount convention)
dated 2024-03-10. -/
def insMar10 : InsertTransaction :=
  { date := ⟨2024, 3, 10, 0, 0, 0⟩, description := "Grocery", category := "Food",
    amount := -200, type := "expense", pdfSource := none }

/-- State after POSTing the salary transaction. -/
def sA : MemStorage := (postTransactionRoute emptyMemStorage 1 insMar5).2

/-- State after POSTing both March transactions. -/
def sB : MemStorage := (postTransactionRoute sA 2 insMar10).2

/-- A partial update moving a transaction date to 2024-04-10. -/
def updToApril : UpdateTransactionData :=
  { date := some ⟨2024, 4, 10, 0, 0, 0⟩, description := none, category := none,
    amount := none, type := none, pdfSource := none }

/-- State after PUTting the date move onto the Food transaction (id 2). -/
def sC : MemStorage := (putTransactionRoute sB 3 2 updToApril).2

/-- An input amount with three decimal places (81/8 = 10.125). -/
def insEighth : InsertTransaction :=
  { date := ⟨2024, 3, 5, 0, 0, 0⟩, description := "x", category := "Other",
    amount := Rat.divInt 81 8, type := "expense", pdfSource := none }

/-- A partial update supplying only a description. -/
def updDescOnly : UpdateTransactionData :=
  { date := none, description := some "Lunch", category := none,
    amount := none, type := none, pdfSource := none }

/-- The March Food transaction as stored in sB. -/
def tx2 : Transaction :=
  { id := 2, userId := 1, date := ⟨2024, 3, 10⟩, description := "Grocery",
    category := "Food", amount := -200, type := "expense", pdfSource := none,
    createdAt := 2 }

/-- A boundary transaction dated 2024-03-31. -/
def txMar31 : Transaction :=
  { id := 7, userId := 1, date := ⟨2024, 3, 31⟩, description := "edge in",
    category := "Other", amount := -5, type := "expense", pdfSource := none,
    createdAt := 0 }

/-- A boundary transaction dated 2024-04-01. -/
def txApr1 : Transaction :=
  { id := 8, userId := 1, date := ⟨2024, 4, 1⟩, description := "edge out",
    category := "Other", amount := -6, type := "expense", pdfSource := none,
    createdAt := 0 }

/-- A store holding the two boundary transactions. -/
def sEdge : MemStorage :=
  { emptyMemStorage with
    transactions := [(7, txMar31), (8, txApr1)]
    transactionId := 9 }

/-- Per-category expense total over an already type-filtered list. -/
def catExpAux (c : String) (ts : List Transaction) : Rat :=
  ((ts.filter (fun t => t.category == c)).map (fun t => mathAbs t.amount)).sum

/-- The stored row built from an insert payload and a fresh id. -/
def mkRow (sid k : Nat) (b : InsertCategoryBreakdown) : CategoryBreakdown :=
  { id := k, summaryId := sid, category := b.category, amount := b.amount,
    percentage := b.percentage }

/-- The breakdown rows created by inserting a payload list starting at a
given id counter value. -/
def mkBreakdownRows (sid : Nat) : Nat → List InsertCategoryBreakdown → List (Nat × CategoryBreakdown)
  | _, [] => []
  | k, b :: bs => (k, mkRow sid k b) :: mkBreakdownRows sid (k + 1) bs

/-- State after an explicit first recompute of March on top of sB. -/
def sB1 : MemStorage := (generateMonthlySummary sB 10 1 2024 3).2

/-- State after a second recompute of March with no intervening change. -/
def sB2 : MemStorage := (generateMonthlySummary sB1 11 1 2024 3).2

/-- The March summary row produced by recomputing sB at time 10. -/
def sumMar1 : MonthlySummary :=
  { id := 1, userId := 1, year := 2024, month := 3, totalIncome := 1000,
    totalExpenses := 200, netBalance := 800, lastUpdated := 10 }

/-! ## Bridge lemmas: the kernel-evaluable rational ops agree with the field operations on Q -/

theorem qAdd_eq (a b : Rat) : qAdd a b = a + b := by
  have ha : ((a.den : ℚ)) ≠ 0 := by exact_mod_cast a.den_nz
  have hb : ((b.den : ℚ)) ≠ 0 := by exact_mod_cast b.den_nz
  have ha2 : (a.num : ℚ) = a * a.den := (div_eq_iff ha).mp (Rat.num_div_den a)
  have hb2 : (b.num : ℚ) = b * b.den := (div_eq_iff hb).mp (Rat.num_div_den b)
  unfold qAdd
  rw [Rat.divInt_eq_div]
  push_cast
  field_simp
  rw [ha2, hb2]
  ring

theorem qMul_eq (a b : Rat) : qMul a b = a * b := by
  have ha : ((a.den : ℚ)) ≠ 0 := by exact_mod_cast a.den_nz
  have hb : ((b.den : ℚ)) ≠ 0 := by exact_mod_cast b.den_nz
  have ha2 : (a.num : ℚ) = a * a.den := (div_eq_iff ha).mp (Rat.num_div_den a)
  have hb2 : (b.num : ℚ) = b * b.den := (div_eq_iff hb).mp (Rat.num_div_den b)
  unfold qMul
  rw [Rat.divInt_eq_div]
  push_cast
  field_simp
  rw [ha2, hb2]
  ring

theorem qSub_eq (a b : Rat) : qSub a b = a - b := by
  unfold qSub
  rw [qAdd_eq, sub_eq_add_neg]

theorem qDiv_eq (a b : Rat) : qDiv a b = a / b := by
  by_cases hb0 : b = 0
  · subst hb0
    simp [qDiv, Rat.divInt_zero]
  · have ha : ((a.den : ℚ)) ≠ 0 := by exact_mod_cast a.den_nz
    have hb : ((b.den : ℚ)) ≠ 0 := by exact_mod_cast b.den_nz
    have hbn : ((b.num : ℚ)) ≠ 0 := by exact_mod_cast Rat.num_ne_zero.mpr hb0
    have ha2 : (a.num : ℚ) = a * a.den := (div_eq_iff ha).mp (Rat.num_div_den a)
    have hb2 : (b.num : ℚ) = b * b.den := (div_eq_iff hb).mp (Rat.num_div_den b)
    unfold qDiv
    rw [Rat.divInt_eq_div]
    push_cast
    field_simp
    rw [ha2, hb2]
    ring


/-! ## Small list facts -/

theorem foldl_qAdd_eq_sum (f : Transaction → Rat) :
    ∀ (l : List Transaction) (a : Rat),
      l.foldl (fun acc t => qAdd acc (f t)) a = a + (l.map f).sum := by
  intro l
  induction l with
  | nil => intro a; simp
  | cons t rest ih =>
    intro a
    rw [List.foldl_cons, ih, qAdd_eq, List.map_cons, List.sum_cons]
    ring

/-- totalIncomeOf as a sum over the income transactions. -/
theorem totalIncomeOf_eq_sum (ts : List Transaction) :
    totalIncomeOf ts = ((ts.filter (fun t => t.type == "income")).map
      (fun t => t.amount)).sum := by
  unfold totalIncomeOf
  rw [foldl_qAdd_eq_sum]
  simp

/-- totalExpensesOf as a sum over the expense transactions. -/
theorem totalExpensesOf_eq_sum (ts : List Transaction) :
    totalExpensesOf ts = ((ts.filter (fun t => t.type == "expense")).map
      (fun t => mathAbs t.amount)).sum := by
  unfold totalExpensesOf
  rw [foldl_qAdd_eq_sum]
  simp

/-! ## Upsert output characterization -/

/-- The summary returned by createOrUpdateMonthlySummary carries exactly
the supplied numeric values, the supplied year/month/user and the fresh
timestamp, on both the update and the insert path. -/
theorem createOrUpdate_out (s : MemStorage) (now uid : Nat) (d : InsertMonthlySummary) :
    (createOrUpdateMonthlySummary s now uid d).1.year = d.year ∧
    (createOrUpdateMonthlySummary s now uid d).1.month = d.month ∧
    (createOrUpdateMonthlySummary s now uid d).1.totalIncome = d.totalIncome ∧
    (createOrUpdateMonthlySummary s now uid d).1.totalExpenses = d.totalExpenses ∧
    (createOrUpdateMonthlySummary s now uid d).1.netBalance = d.netBalance ∧
    (createOrUpdateMonthlySummary s now uid d).1.lastUpdated = now ∧
    (createOrUpdateMonthlySummary s now uid d).1.userId = uid := by
  unfold createOrUpdateMonthlySummary
  cases h : getMonthlySummaryByMonth s uid d.year d.month with
  | none => simp
  | some ex =>
    have hp : (ex.userId == uid && ex.year == d.year && ex.month == d.month) = true := by
      have := List.find?_some (p := fun v : MonthlySummary =>
        v.userId == uid && v.year == d.year && v.month == d.month)
        (by simpa [getMonthlySummaryByMonth] using h)
      exact this
    simp only [Bool.and_eq_true, beq_iff_eq] at hp
    simp [hp.1.1]

/-! ## Claim theorems, first group -/

/-- C10: for a month whose transaction set is empty, recompute returns
no summary and performs no store write: the state is returned unchanged,
so any previously stored summary and breakdowns survive as they were and
no zeroed summary is upserted. -/
theorem generateMonthlySummary_empty_noop (s : MemStorage) (now uid y m : Nat)
    (h : getTransactionsByMonth s uid y m = []) :
    generateMonthlySummary s now uid y m = (none, s) := by
  simp [generateMonthlySummary, h]

/-- Witness for C10 at a concrete empty store. -/
theorem generateMonthlySummary_empty_noop_witness :
    generateMonthlySummary emptyMemStorage 0 1 2024 1 = (none, emptyMemStorage) :=
  generateMonthlySummary_empty_noop emptyMemStorage 0 1 2024 1 (by decide)

/-- C1 (violation evidence): starting from the demo store, POST a March
income of 1000 and a March expense of 200, then PUT a date change moving
the expense to April. The stored March summary still reports
totalExpenses = 200, while the pure aggregation of the current March
transaction set has totalExpenses = 0 (and totalIncome = 1000): the PUT
handler recomputes only the new month, leaving the old month stale. -/
theorem putRoute_old_month_stale :
    (getMonthlySummaryByMonth sC 1 2024 3).map (fun msum => msum.totalExpenses)
        = some 200 ∧
    totalExpensesOf (getTransactionsByMonth sC 1 2024 3) = 0 ∧
    totalIncomeOf (getTransactionsByMonth sC 1 2024 3) = 1000 := by
  refine ⟨by decide, by decide, by decide⟩

/-- C2: whenever recompute produces a summary, its totalIncome is the
sum of the income amounts, its totalExpenses is the sum of the absolute
expense amounts, and its netBalance is totalIncome minus totalExpenses,
over the month's fetched transaction set. -/
theorem generateMonthlySummary_sums (s : MemStorage) (now uid y m : Nat)
    (sum : MonthlySummary) (s' : MemStorage)
    (heq : generateMonthlySummary s now uid y m = (some sum, s')) :
    sum.totalIncome = (((getTransactionsByMonth s uid y m).filter
        (fun t => t.type == "income")).map (fun t => t.amount)).sum ∧
    sum.totalExpenses = (((getTransactionsByMonth s uid y m).filter
        (fun t => t.type == "expense")).map (fun t => mathAbs t.amount)).sum ∧
    sum.netBalance = sum.totalIncome - sum.totalExpenses := by
  simp only [generateMonthlySummary] at heq
  split at heq
  · exact absurd heq (by simp)
  · injection heq with h1 h2
    injection h1 with h1
    subst h1
    obtain ⟨hy, hm, hti, hte, hnb, hlu, hus⟩ := createOrUpdate_out s now uid
      { year := y, month := m,
        totalIncome := totalIncomeOf (getTransactionsByMonth s uid y m),
        totalExpenses := totalExpensesOf (getTransactionsByMonth s uid y m),
        netBalance := qSub (totalIncomeOf (getTransactionsByMonth s uid y m))
          (totalExpensesOf (getTransactionsByMonth s uid y m)) }
    refine ⟨?_, ?_, ?_⟩
    · rw [hti, totalIncomeOf_eq_sum]
    · rw [hte, totalExpensesOf_eq_sum]
    · rw [hnb, hti, hte, qSub_eq]

/-- Witness for C2: the two March transactions of the demo scenario. -/
theorem generateMonthlySummary_sums_witness :
    ({ id := 1, userId := 1, year := 2024, month := 3, totalIncome := 1000,
       totalExpenses := 200, netBalance := 800,
       lastUpdated := 10 } : MonthlySummary).totalIncome
      = (((getTransactionsByMonth sB 1 2024 3).filter
          (fun t => t.type == "income")).map (fun t => t.amount)).sum ∧
    ({ id := 1, userId := 1, year := 2024, month := 3, totalIncome := 1000,
       totalExpenses := 200, netBalance := 800,
       lastUpdated := 10 } : MonthlySummary).totalExpenses
      = (((getTransactionsByMonth sB 1 2024 3).filter
          (fun t => t.type == "expense")).map (fun t => mathAbs t.amount)).sum ∧
    ({ id := 1, userId := 1, year := 2024, month := 3, totalIncome := 1000,
       totalExpenses := 200, netBalance := 800,
       lastUpdated := 10 } : MonthlySummary).netBalance = 1000 - 200 :=
  generateMonthlySummary_sums sB 10 1 2024 3 _ _
    (Prod.ext (by decide) rfl)

/-- C8 (counterexample): the in-memory createTransaction does not round
the amount to two decimals: an input of 10.125 is stored verbatim, and
100 times the stored amount is not an integer. -/
theorem createTransaction_not_twoDecimal :
    ¬ twoDecimal (createTransaction emptyMemStorage 0 1 insEighth).1.amount := by
  unfold twoDecimal
  decide

/-- C8 (amended): createTransaction returns a transaction carrying a
fresh identifier never used by a stored transaction, its date normalized
to the date-only part of the input date, and its amount stored exactly
as supplied (value preserved, not rounded); the new row is appended
under the fresh id. -/
theorem createTransaction_spec (s : MemStorage) (now uid : Nat) (ins : InsertTransaction)
    (hwf : mapWF Transaction.id s.transactions s.transactionId) :
    (createTransaction s now uid ins).1.id = s.transactionId ∧
    (∀ t0 ∈ jsValues s.transactions, t0.id ≠ (createTransaction s now uid ins).1.id) ∧
    (createTransaction s now uid ins).1.amount = ins.amount ∧
    (createTransaction s now uid ins).1.date = jsDateToDateOnly ins.date ∧
    (createTransaction s now uid ins).2.transactions
      = s.transactions ++ [(s.transactionId, (createTransaction s now uid ins).1)] := by
  obtain ⟨hid, hnd, hlt⟩ := hwf
  refine ⟨rfl, ?_, rfl, rfl, ?_⟩
  · intro t0 ht0
    obtain ⟨p, hp, hq⟩ := List.mem_map.mp ht0
    have h1 := hid p hp
    have h2 := hlt p hp
    subst hq
    show p.2.id ≠ s.transactionId
    omega
  · have hany : s.transactions.any (fun p => p.1 == s.transactionId) = false := by
      rw [List.any_eq_false]
      intro p hp
      have := hlt p hp
      simp only [beq_iff_eq]
      omega
    simp [createTransaction, jsSet, hany]

/-- Witness for C8's amended statement on the demo store. -/
theorem createTransaction_spec_witness :
    (createTransaction emptyMemStorage 0 1 insEighth).1.id = 1 ∧
    (createTransaction emptyMemStorage 0 1 insEighth).1.amount = insEighth.amount ∧
    (createTransaction emptyMemStorage 0 1 insEighth).1.date
      = jsDateToDateOnly insEighth.date := by
  have h := createTransaction_spec emptyMemStorage 0 1 insEighth (by decide)
  exact ⟨h.1, h.2.2.1, h.2.2.2.1⟩

/-- C7: updateTransaction leaves the store untouched and returns
undefined for an unknown id; for a stored transaction it returns the
row with exactly the supplied fields overwritten, every unsupplied field
(including id, userId, createdAt) keeping its prior value, and writes
that row back under the same id. -/
theorem updateTransaction_spec (s : MemStorage) (id : Nat) (u : UpdateTransactionData) :
    (jsGet s.transactions id = none → updateTransaction s id u = (none, s)) ∧
    (∀ t, jsGet s.transactions id = some t →
      ∃ t', updateTransaction s id u
          = (some t', { s with transactions := jsSet s.transactions id t' }) ∧
        t'.id = t.id ∧ t'.userId = t.userId ∧ t'.createdAt = t.createdAt ∧
        t'.date = (u.date.map jsDateToDateOnly).getD t.date ∧
        t'.amount = u.amount.getD t.amount ∧
        t'.description = u.description.getD t.description ∧
        t'.category = u.category.getD t.category ∧
        t'.type = u.type.getD t.type ∧
        t'.pdfSource = u.pdfSource.getD t.pdfSource) := by
  constructor
  · intro h
    simp [updateTransaction, h]
  · intro t ht
    obtain ⟨od, ods, oc, oa, oty, op⟩ := u
    simp only [updateTransaction, ht]
    cases od <;> cases ods <;> cases oc <;> cases oa <;> cases oty <;> cases op <;>
      exact ⟨_, rfl, rfl, rfl, rfl, rfl, rfl, rfl, rfl, rfl, rfl⟩

/-- Witness for C7: unknown id leaves the demo store unchanged; a
description-only update overwrites just the description. -/
theorem updateTransaction_spec_witness :
    updateTransaction sB 99 updDescOnly = (none, sB) ∧
    (updateTransaction sB 2 updDescOnly).1.map
        (fun t' => (t'.description, t'.amount, t'.id, t'.createdAt))
      = some ("Lunch", -200, 2, 2) := by
  refine ⟨(updateTransaction_spec sB 99 updDescOnly).1 (by decide), ?_⟩
  obtain ⟨t', he, hid, hu, hcr, hd, ha, hds, hcat, hty, hp⟩ :=
    (updateTransaction_spec sB 2 updDescOnly).2 tx2 (by decide)
  rw [congrArg Prod.fst he]
  show some (t'.description, t'.amount, t'.id, t'.createdAt) = some ("Lunch", -200, 2, 2)
  rw [hds, ha, hid, hcr]
  decide


/-- C4: for a month in [1,12], the month-filter query returns exactly the
stored transactions of the given user whose (valid) date lies between the
first and the last day of that month inclusive. -/
theorem getTransactionsByMonth_range (s : MemStorage) (uid y m : Nat)
    (t : Transaction) (hm1 : 1 ≤ m) (hm2 : m ≤ 12) (hv : ValidDate t.date) :
    t ∈ getTransactionsByMonth s uid y m ↔
      t ∈ jsValues s.transactions ∧ t.userId = uid ∧
      dateLE (firstDayOfMonth y m) t.date ∧ dateLE t.date (lastDayOfMonth y m) := by
  unfold getTransactionsByMonth
  rw [List.mem_filter]
  obtain ⟨hv1, hv2, hv3, hv4⟩ := hv
  constructor
  · rintro ⟨hmem, hcond⟩
    simp only [Bool.and_eq_true, beq_iff_eq, decide_eq_true_eq] at hcond
    obtain ⟨⟨hu, hy⟩, hmm⟩ := hcond
    have hm' : t.date.month = m := by omega
    refine ⟨hmem, hu, ?_, ?_⟩
    · exact Or.inr ⟨hy.symm, Or.inr ⟨hm'.symm, hv3⟩⟩
    · refine Or.inr ⟨hy, Or.inr ⟨hm', ?_⟩⟩
      rw [hy, hm'] at hv4
      exact hv4
  · rintro ⟨hmem, hu, hle1, hle2⟩
    refine ⟨hmem, ?_⟩
    simp only [Bool.and_eq_true, beq_iff_eq, decide_eq_true_eq]
    simp only [dateLE, firstDayOfMonth, lastDayOfMonth] at hle1 hle2
    refine ⟨⟨hu, ?_⟩, ?_⟩ <;> omega

/-- Witness for C4: for (2024, 3) the query includes the transaction
dated 2024-03-31 and excludes the one dated 2024-04-01. -/
theorem getTransactionsByMonth_range_witness :
    txMar31 ∈ getTransactionsByMonth sEdge 1 2024 3 ∧
    txApr1 ∉ getTransactionsByMonth sEdge 1 2024 3 := by
  constructor
  · exact (getTransactionsByMonth_range sEdge 1 2024 3 txMar31
      (by decide) (by decide) (by decide)).mpr (by decide)
  · intro hmem
    exact absurd ((getTransactionsByMonth_range sEdge 1 2024 3 txApr1
      (by decide) (by decide) (by decide)).mp hmem) (by decide)


/-- C9: when no line of the extracted statement text matches the
currency-amount pattern, the upload endpoint responds 400 and the store
is returned unchanged: no transaction is created and no summary is
touched. -/
theorem uploadStatement_no_dollar (s : MemStorage) (now : Nat) (today : JsDate)
    (text : String)
    (h : ∀ line ∈ splitOnNl text.data, findDollarAmount line = none) :
    uploadStatementRoute s now today text = (400, s) := by
  have hext : extractTransactions today text = [] := by
    unfold extractTransactions
    rw [List.filterMap_eq_nil_iff]
    intro line hline
    have hnone := h line (List.mem_of_mem_filter hline)
    simp only [hnone]
  simp [uploadStatementRoute, hext]

/-- Witness for C9: a statement text with no dollar amount (a bare
"12.34" does not match the $-anchored pattern). -/
theorem uploadStatement_no_dollar_witness :
    uploadStatementRoute emptyMemStorage 5 ⟨2024, 5, 1, 0, 0, 0⟩
      "Opening balance\nNo amounts listed here 12.34\nThanks"
      = (400, emptyMemStorage) :=
  uploadStatement_no_dollar emptyMemStorage 5 ⟨2024, 5, 1, 0, 0, 0⟩
    "Opening balance\nNo amounts listed here 12.34\nThanks" (by decide)


/-! ## Map machinery for the recompute analysis -/

theorem gtbm_congr (s s' : MemStorage) (uid y m : Nat)
    (h : s'.transactions = s.transactions) :
    getTransactionsByMonth s' uid y m = getTransactionsByMonth s uid y m := by
  unfold getTransactionsByMonth
  rw [h]

theorem gmsb_congr (s s' : MemStorage) (uid y m : Nat)
    (h : s'.monthlySummaries = s.monthlySummaries) :
    getMonthlySummaryByMonth s' uid y m = getMonthlySummaryByMonth s uid y m := by
  unfold getMonthlySummaryByMonth
  rw [h]

theorem jsSet_of_not_mem {α : Type} (m : List (Nat × α)) (k : Nat) (v : α)
    (h : ∀ p ∈ m, p.1 ≠ k) : jsSet m k v = m ++ [(k, v)] := by
  have hf : m.any (fun p => p.1 == k) = false := by
    rw [List.any_eq_false]
    intro p hp
    simpa using h p hp
  simp [jsSet, hf]

theorem jsSet_of_mem_keys {α : Type} (m : List (Nat × α)) (k : Nat) (v : α)
    (h : ∃ p ∈ m, p.1 = k) :
    jsSet m k v = m.map (fun p => if p.1 == k then (k, v) else p) := by
  have ht : m.any (fun p => p.1 == k) = true := by
    rw [List.any_eq_true]
    obtain ⟨p, hp, he⟩ := h
    exact ⟨p, hp, by simpa using he⟩
  simp [jsSet, ht]

theorem key_inj {α : Type} :
    ∀ (m : List (Nat × α)), (m.map Prod.fst).Nodup →
      ∀ p q, p ∈ m → q ∈ m → p.1 = q.1 → p = q := by
  intro m
  induction m with
  | nil => intro _ p q hp; exact absurd hp (List.not_mem_nil p)
  | cons a rest ih =>
    intro hnd p q hp hq hk
    rw [List.map_cons, List.nodup_cons] at hnd
    rcases List.mem_cons.mp hp with hp1 | hp2 <;>
      rcases List.mem_cons.mp hq with hq1 | hq2
    · rw [hp1, hq1]
    · exfalso
      apply hnd.1
      rw [List.mem_map]
      exact ⟨q, hq2, by rw [← hk, hp1]⟩
    · exfalso
      apply hnd.1
      rw [List.mem_map]
      exact ⟨p, hp2, by rw [hk, hq1]⟩
    · exact ih hnd.2 p q hp2 hq2 hk

theorem find?_values_map_update {α : Type} (idOf : α → Nat) (pred : α → Bool)
    (ex v' : α) (hv' : pred v' = true) :
    ∀ (m : List (Nat × α)),
      (∀ p ∈ m, idOf p.2 = p.1) → ((m.map Prod.fst).Nodup) →
      (jsValues m).find? pred = some ex →
      (jsValues (m.map (fun p => if p.1 == idOf ex then (idOf ex, v') else p))).find? pred
        = some v' := by
  intro m
  induction m with
  | nil => intro _ _ hfind; simp [jsValues] at hfind
  | cons a rest ih =>
    intro hid hnd hfind
    rw [List.map_cons, List.nodup_cons] at hnd
    simp only [jsValues, List.map_cons] at hfind ⊢
    cases hpred : pred a.2 with
    | true =>
      rw [List.find?_cons_of_pos _ hpred] at hfind
      injection hfind with hfind
      have hkey : a.1 == idOf ex := by
        rw [← hfind, hid a (List.mem_cons_self a rest)]
        exact beq_self_eq_true a.1
      rw [hkey]
      exact List.find?_cons_of_pos _ hv'
    | false =>
      rw [List.find?_cons_of_neg _ (by simp [hpred])] at hfind
      have hexmem : ex ∈ rest.map Prod.snd := List.mem_of_find?_eq_some hfind
      obtain ⟨q, hq, hq2⟩ := List.mem_map.mp hexmem
      have hkne : (a.1 == idOf ex) = false := by
        have hqk : idOf ex = q.1 := by rw [← hq2]; exact hid q (List.mem_cons_of_mem a hq)
        have : a.1 ≠ q.1 := by
          intro hcontra
          exact hnd.1 (List.mem_map.mpr ⟨q, hq, hcontra.symm⟩)
        simp [hqk, this]
      rw [hkne]
      rw [List.find?_cons_of_neg _ (by simp [hpred])]
      exact ih (fun p hp => hid p (List.mem_cons_of_mem a hp)) hnd.2 hfind


theorem createOrUpdate_effects (s : MemStorage) (now uid : Nat) (d : InsertMonthlySummary) :
    (createOrUpdateMonthlySummary s now uid d).2.transactions = s.transactions ∧
    (createOrUpdateMonthlySummary s now uid d).2.transactionId = s.transactionId ∧
    (createOrUpdateMonthlySummary s now uid d).2.categoryBreakdowns = s.categoryBreakdowns ∧
    (createOrUpdateMonthlySummary s now uid d).2.breakdownId = s.breakdownId := by
  unfold createOrUpdateMonthlySummary
  cases getMonthlySummaryByMonth s uid d.year d.month <;> simp

/-- After an upsert, looking the (user, year, month) key up again finds
exactly the summary the upsert returned. -/
theorem gmsb_after_upsert (s : MemStorage) (now uid : Nat) (d : InsertMonthlySummary)
    (hwf : mapWF MonthlySummary.id s.monthlySummaries s.summaryId) :
    getMonthlySummaryByMonth (createOrUpdateMonthlySummary s now uid d).2 uid d.year d.month
      = some (createOrUpdateMonthlySummary s now uid d).1 := by
  obtain ⟨hid, hnd, hlt⟩ := hwf
  unfold createOrUpdateMonthlySummary
  cases h : getMonthlySummaryByMonth s uid d.year d.month with
  | some ex =>
    dsimp only
    have hfind : (jsValues s.monthlySummaries).find?
        (fun v => v.userId == uid && v.year == d.year && v.month == d.month) = some ex := by
      simpa [getMonthlySummaryByMonth] using h
    have hpred := List.find?_some hfind
    simp only [Bool.and_eq_true, beq_iff_eq] at hpred
    have hexmem : ex ∈ jsValues s.monthlySummaries := List.mem_of_find?_eq_some hfind
    obtain ⟨q, hq, hq2⟩ := List.mem_map.mp hexmem
    have hkey : ∃ p ∈ s.monthlySummaries, p.1 = ex.id := by
      refine ⟨q, hq, ?_⟩
      rw [← hq2]
      exact (hid q hq).symm
    unfold getMonthlySummaryByMonth
    dsimp only
    rw [jsSet_of_mem_keys _ _ _ hkey]
    exact find?_values_map_update MonthlySummary.id _ ex _
      (by simp [hpred.1.1]) s.monthlySummaries hid hnd hfind
  | none =>
    dsimp only
    have hfresh : ∀ p ∈ s.monthlySummaries, p.1 ≠ s.summaryId :=
      fun p hp => Nat.ne_of_lt (hlt p hp)
    unfold getMonthlySummaryByMonth at h ⊢
    dsimp only
    rw [jsSet_of_not_mem _ _ _ hfresh]
    unfold jsValues at h ⊢
    rw [List.map_append, List.find?_append, h]
    simp

theorem mapWF_jsSet_existing {α : Type} (idOf : α → Nat) (m : List (Nat × α))
    (counter k : Nat) (v : α) (hwf : mapWF idOf m counter)
    (hkey : ∃ p ∈ m, p.1 = k) (hv : idOf v = k) (hk : k < counter) :
    mapWF idOf (jsSet m k v) counter := by
  obtain ⟨hid, hnd, hlt⟩ := hwf
  rw [jsSet_of_mem_keys _ _ _ hkey]
  refine ⟨?_, ?_, ?_⟩
  · intro p hp
    obtain ⟨q0, hq0, hq02⟩ := List.mem_map.mp hp
    cases hb : q0.1 == k
    · rw [← hq02]
      simp only [hb, Bool.false_eq_true, if_false]
      exact hid q0 hq0
    · rw [← hq02]
      simp only [hb, if_true]
      exact hv
  · have hkeys : ((m.map (fun p => if p.1 == k then (k, v) else p)).map Prod.fst)
        = m.map Prod.fst := by
      rw [List.map_map]
      apply List.map_congr_left
      intro p _
      cases hb : p.1 == k
      · rw [beq_eq_false_iff_ne] at hb
        simp [hb]
      · rw [beq_iff_eq] at hb
        simp [hb]
    rw [hkeys]
    exact hnd
  · intro p hp
    obtain ⟨q0, hq0, hq02⟩ := List.mem_map.mp hp
    cases hb : q0.1 == k
    · rw [← hq02]
      simp only [hb, Bool.false_eq_true, if_false]
      exact hlt q0 hq0
    · rw [← hq02]
      simp only [hb, if_true]
      exact hk

theorem mapWF_jsSet_fresh {α : Type} (idOf : α → Nat) (m : List (Nat × α))
    (counter : Nat) (v : α) (hwf : mapWF idOf m counter) (hv : idOf v = counter) :
    mapWF idOf (jsSet m counter v) (counter + 1) := by
  obtain ⟨hid, hnd, hlt⟩ := hwf
  have hfresh : ∀ p ∈ m, p.1 ≠ counter := fun p hp => Nat.ne_of_lt (hlt p hp)
  rw [jsSet_of_not_mem _ _ _ hfresh]
  refine ⟨?_, ?_, ?_⟩
  · intro p hp
    rcases List.mem_append.mp hp with h1 | h2
    · exact hid p h1
    · rw [List.mem_singleton] at h2
      rw [h2]
      exact hv
  · rw [List.map_append, List.nodup_append]
    refine ⟨hnd, List.nodup_singleton _, ?_⟩
    intro k hk hk2
    simp only [List.map_cons, List.map_nil, List.mem_singleton] at hk2
    obtain ⟨q0, hq0, hq02⟩ := List.mem_map.mp hk
    rw [hk2] at hq02
    exact absurd hq02 (hfresh q0 hq0)
  · intro p hp
    rcases List.mem_append.mp hp with h1 | h2
    · have := hlt p h1
      omega
    · rw [List.mem_singleton] at h2
      rw [h2]
      omega

theorem createOrUpdate_wf (s : MemStorage) (now uid : Nat) (d : InsertMonthlySummary)
    (hwf : mapWF MonthlySummary.id s.monthlySummaries s.summaryId) :
    mapWF MonthlySummary.id (createOrUpdateMonthlySummary s now uid d).2.monthlySummaries
      (createOrUpdateMonthlySummary s now uid d).2.summaryId := by
  have hwf' := hwf
  obtain ⟨hid, hnd, hlt⟩ := hwf'
  unfold createOrUpdateMonthlySummary
  cases h : getMonthlySummaryByMonth s uid d.year d.month with
  | some ex =>
    dsimp only
    have hfind : (jsValues s.monthlySummaries).find?
        (fun v => v.userId == uid && v.year == d.year && v.month == d.month) = some ex := by
      simpa [getMonthlySummaryByMonth] using h
    have hexmem : ex ∈ jsValues s.monthlySummaries := List.mem_of_find?_eq_some hfind
    obtain ⟨q, hq, hq2⟩ := List.mem_map.mp hexmem
    have hkey : ∃ p ∈ s.monthlySummaries, p.1 = ex.id := by
      refine ⟨q, hq, ?_⟩
      rw [← hq2]
      exact (hid q hq).symm
    have hklt : ex.id < s.summaryId := by
      obtain ⟨p, hp, hpk⟩ := hkey
      rw [← hpk] at *
      exact hpk ▸ hlt p hp
    exact mapWF_jsSet_existing MonthlySummary.id s.monthlySummaries s.summaryId ex.id _
      hwf hkey rfl hklt
  | none =>
    dsimp only
    exact mapWF_jsSet_fresh MonthlySummary.id s.monthlySummaries s.summaryId _ hwf rfl

/-! ## updateCategoryBreakdowns machinery -/

theorem foldl_jsDeleteK (bs : List CategoryBreakdown) :
    ∀ (m0 : List (Nat × CategoryBreakdown)),
      bs.foldl (fun acc b => jsDeleteK acc b.id) m0
        = m0.filter (fun p => !(bs.any (fun b => p.1 == b.id))) := by
  induction bs with
  | nil => intro m0; simp
  | cons b rest ih =>
    intro m0
    rw [List.foldl_cons]
    show rest.foldl (fun acc b => jsDeleteK acc b.id) (jsDeleteK m0 b.id) = _
    rw [ih]
    unfold jsDeleteK
    rw [List.filter_filter]
    apply List.filter_congr
    intro p _
    cases h1 : p.1 == b.id <;>
      cases h2 : rest.any (fun b2 => p.1 == b2.id) <;>
        simp [h1, h2]

theorem deleteAll_eq_filter (m : List (Nat × CategoryBreakdown)) (sid : Nat)
    (hid : ∀ p ∈ m, p.2.id = p.1) (hnd : (m.map Prod.fst).Nodup) :
    ((jsValues m).filter (fun b => b.summaryId == sid)).foldl
        (fun acc b => jsDeleteK acc b.id) m
      = m.filter (fun p => !(p.2.summaryId == sid)) := by
  rw [foldl_jsDeleteK]
  apply List.filter_congr
  intro p hp
  have hiff : ((jsValues m).filter (fun b => b.summaryId == sid)).any
      (fun b => p.1 == b.id) = (p.2.summaryId == sid) := by
    cases hsid : p.2.summaryId == sid
    · rw [List.any_eq_false]
      intro b hb
      rw [List.mem_filter] at hb
      obtain ⟨hbv, hbsid⟩ := hb
      obtain ⟨q, hq, hq2⟩ := List.mem_map.mp hbv
      intro hcontra
      rw [beq_iff_eq] at hcontra
      have hqk : q.1 = b.id := by rw [← hq2]; exact (hid q hq).symm
      have : p = q := key_inj m hnd p q hp hq (by rw [hcontra, hqk])
      rw [this, hq2] at hsid
      rw [hbsid] at hsid
      exact absurd hsid (by decide)
    · rw [List.any_eq_true]
      refine ⟨p.2, ?_, ?_⟩
      · rw [List.mem_filter]
        exact ⟨List.mem_map.mpr ⟨p, hp, rfl⟩, hsid⟩
      · rw [hid p hp]
        exact beq_self_eq_true p.1
  rw [hiff]

theorem mkBreakdownRows_mem (sid : Nat) :
    ∀ (bds : List InsertCategoryBreakdown) (k : Nat),
      ∀ p ∈ mkBreakdownRows sid k bds,
        p.2.id = p.1 ∧ p.2.summaryId = sid ∧ k ≤ p.1 ∧ p.1 < k + bds.length := by
  intro bds
  induction bds with
  | nil =>
    intro k p hp
    simp [mkBreakdownRows] at hp
  | cons b rest ih =>
    intro k p hp
    simp only [mkBreakdownRows] at hp
    rcases List.mem_cons.mp hp with h1 | h2
    · rw [h1]
      refine ⟨rfl, rfl, Nat.le_refl k, ?_⟩
      simp only [List.length_cons]
      omega
    · obtain ⟨ha, hb, hc, hd⟩ := ih (k + 1) p h2
      refine ⟨ha, hb, by omega, ?_⟩
      simp only [List.length_cons]
      omega

theorem mkBreakdownRows_keys_nodup (sid : Nat) :
    ∀ (bds : List InsertCategoryBreakdown) (k : Nat),
      ((mkBreakdownRows sid k bds).map Prod.fst).Nodup := by
  intro bds
  induction bds with
  | nil => intro k; simp [mkBreakdownRows]
  | cons b rest ih =>
    intro k
    simp only [mkBreakdownRows, List.map_cons, List.nodup_cons]
    refine ⟨?_, ih (k + 1)⟩
    intro hk
    obtain ⟨p, hp, hp2⟩ := List.mem_map.mp hk
    obtain ⟨_, _, hc, _⟩ := mkBreakdownRows_mem sid rest (k + 1) p hp
    omega

theorem mkBreakdownRows_values_proj (sid : Nat) :
    ∀ (bds : List InsertCategoryBreakdown) (k : Nat),
      (jsValues (mkBreakdownRows sid k bds)).map
          (fun b => (b.category, b.amount, b.percentage))
        = bds.map (fun b => (b.category, b.amount, b.percentage)) := by
  intro bds
  induction bds with
  | nil => intro k; simp [mkBreakdownRows, jsValues]
  | cons b rest ih =>
    intro k
    simp only [mkBreakdownRows, jsValues, List.map_cons]
    rw [show (List.map (fun p => p.2) (mkBreakdownRows sid (k+1) rest)) = jsValues (mkBreakdownRows sid (k+1) rest) from rfl]
    rw [ih (k + 1)]
    rfl

theorem updateCB_fold (sid : Nat) :
    ∀ (bds : List InsertCategoryBreakdown) (σ : MemStorage) (acc : List CategoryBreakdown),
      (∀ p ∈ σ.categoryBreakdowns, p.1 < σ.breakdownId) →
      (bds.foldl (insertBreakdownStep sid) (acc, σ)).2.categoryBreakdowns
          = σ.categoryBreakdowns ++ mkBreakdownRows sid σ.breakdownId bds ∧
      (bds.foldl (insertBreakdownStep sid) (acc, σ)).2.breakdownId
          = σ.breakdownId + bds.length ∧
      (bds.foldl (insertBreakdownStep sid) (acc, σ)).2.transactions = σ.transactions ∧
      (bds.foldl (insertBreakdownStep sid) (acc, σ)).2.monthlySummaries = σ.monthlySummaries ∧
      (bds.foldl (insertBreakdownStep sid) (acc, σ)).2.transactionId = σ.transactionId ∧
      (bds.foldl (insertBreakdownStep sid) (acc, σ)).2.summaryId = σ.summaryId := by
  intro bds
  induction bds with
  | nil =>
    intro σ acc hb
    simp [mkBreakdownRows]
  | cons b rest ih =>
    intro σ acc hb
    rw [List.foldl_cons]
    have hfresh : ∀ p ∈ σ.categoryBreakdowns, p.1 ≠ σ.breakdownId :=
      fun p hp => Nat.ne_of_lt (hb p hp)
    have hstep : insertBreakdownStep sid (acc, σ) b
        = (acc ++ [mkRow sid σ.breakdownId b],
           { σ with
             categoryBreakdowns := σ.categoryBreakdowns
               ++ [(σ.breakdownId, mkRow sid σ.breakdownId b)]
             breakdownId := σ.breakdownId + 1 }) := by
      unfold insertBreakdownStep createCategoryBreakdown mkRow
      dsimp only
      rw [jsSet_of_not_mem _ _ _ hfresh]
    rw [hstep]
    have hbnew : ∀ p ∈ σ.categoryBreakdowns ++ [(σ.breakdownId, mkRow sid σ.breakdownId b)],
        p.1 < σ.breakdownId + 1 := by
      intro p hp
      rcases List.mem_append.mp hp with h1 | h2
      · have := hb p h1
        omega
      · rw [List.mem_singleton] at h2
        rw [h2]
        exact Nat.lt_succ_self _
    obtain ⟨e1, e2, e3, e4, e5, e6⟩ := ih
      { σ with
        categoryBreakdowns := σ.categoryBreakdowns
          ++ [(σ.breakdownId, mkRow sid σ.breakdownId b)]
        breakdownId := σ.breakdownId + 1 }
      (acc ++ [mkRow sid σ.breakdownId b]) hbnew
    dsimp only at e1 e2 e3 e4 e5 e6
    refine ⟨?_, ?_, by rw [e3], by rw [e4], by rw [e5], by rw [e6]⟩
    · rw [e1]
      simp only [mkBreakdownRows, List.append_assoc, List.singleton_append]
    · rw [e2]
      simp only [List.length_cons]
      omega

theorem updateCB_spec (s : MemStorage) (sid : Nat) (bds : List InsertCategoryBreakdown)
    (hwf : mapWF CategoryBreakdown.id s.categoryBreakdowns s.breakdownId) :
    (updateCategoryBreakdowns s sid bds).2.categoryBreakdowns
        = s.categoryBreakdowns.filter (fun p => !(p.2.summaryId == sid))
            ++ mkBreakdownRows sid s.breakdownId bds ∧
    (updateCategoryBreakdowns s sid bds).2.breakdownId = s.breakdownId + bds.length ∧
    (updateCategoryBreakdowns s sid bds).2.transactions = s.transactions ∧
    (updateCategoryBreakdowns s sid bds).2.monthlySummaries = s.monthlySummaries ∧
    (updateCategoryBreakdowns s sid bds).2.transactionId = s.transactionId ∧
    (updateCategoryBreakdowns s sid bds).2.summaryId = s.summaryId := by
  obtain ⟨hid, hnd, hlt⟩ := hwf
  simp only [updateCategoryBreakdowns]
  rw [deleteAll_eq_filter s.categoryBreakdowns sid hid hnd]
  have hb0 : ∀ p ∈ (s.categoryBreakdowns.filter (fun p => !(p.2.summaryId == sid))),
      p.1 < s.breakdownId := fun p hp => hlt p (List.mem_of_mem_filter hp)
  exact updateCB_fold sid bds
    { s with categoryBreakdowns :=
        s.categoryBreakdowns.filter (fun p => !(p.2.summaryId == sid)) } [] hb0


theorem updateCB_wf (s : MemStorage) (sid : Nat) (bds : List InsertCategoryBreakdown)
    (hwf : mapWF CategoryBreakdown.id s.categoryBreakdowns s.breakdownId) :
    mapWF CategoryBreakdown.id (updateCategoryBreakdowns s sid bds).2.categoryBreakdowns
      (updateCategoryBreakdowns s sid bds).2.breakdownId := by
  obtain ⟨e1, e2, _, _, _, _⟩ := updateCB_spec s sid bds hwf
  obtain ⟨hid, hnd, hlt⟩ := hwf
  rw [e1, e2]
  refine ⟨?_, ?_, ?_⟩
  · intro p hp
    rcases List.mem_append.mp hp with h1 | h2
    · exact hid p (List.mem_of_mem_filter h1)
    · exact (mkBreakdownRows_mem sid bds s.breakdownId p h2).1
  · rw [List.map_append, List.nodup_append]
    refine ⟨?_, mkBreakdownRows_keys_nodup sid bds s.breakdownId, ?_⟩
    · exact List.Nodup.sublist
        (List.Sublist.map Prod.fst (List.filter_sublist s.categoryBreakdowns)) hnd
    · intro k hk1 hk2
      obtain ⟨p, hp, hpk⟩ := List.mem_map.mp hk1
      obtain ⟨q, hq, hqk⟩ := List.mem_map.mp hk2
      have h1 := hlt p (List.mem_of_mem_filter hp)
      have h2 := (mkBreakdownRows_mem sid bds s.breakdownId q hq).2.2.1
      omega
  · intro p hp
    rcases List.mem_append.mp hp with h1 | h2
    · have := hlt p (List.mem_of_mem_filter h1)
      omega
    · have h2' := (mkBreakdownRows_mem sid bds s.breakdownId p h2).2.2.2
      omega

theorem updateCB_breakdownsFor (s : MemStorage) (sid : Nat)
    (bds : List InsertCategoryBreakdown)
    (hwf : mapWF CategoryBreakdown.id s.categoryBreakdowns s.breakdownId) :
    breakdownsFor (updateCategoryBreakdowns s sid bds).2 sid
      = jsValues (mkBreakdownRows sid s.breakdownId bds) := by
  obtain ⟨e1, _, _, _, _, _⟩ := updateCB_spec s sid bds hwf
  unfold breakdownsFor
  rw [e1]
  unfold jsValues
  rw [List.map_append, List.filter_append]
  have hleft : (List.map (fun p => p.2)
      (s.categoryBreakdowns.filter (fun p => !(p.2.summaryId == sid)))).filter
        (fun b => b.summaryId == sid) = [] := by
    rw [List.filter_eq_nil_iff]
    intro b hb
    obtain ⟨p, hp, hp2⟩ := List.mem_map.mp hb
    rw [List.mem_filter] at hp
    obtain ⟨_, hneg⟩ := hp
    rw [Bool.not_eq_eq_eq_not, Bool.not_true] at hneg
    rw [← hp2]
    simp [hneg]
  have hright : (List.map (fun p => p.2) (mkBreakdownRows sid s.breakdownId bds)).filter
      (fun b => b.summaryId == sid)
        = List.map (fun p => p.2) (mkBreakdownRows sid s.breakdownId bds) := by
    rw [List.filter_eq_self]
    intro b hb
    obtain ⟨p, hp, hp2⟩ := List.mem_map.mp hb
    have hsid := (mkBreakdownRows_mem sid bds s.breakdownId p hp).2.1
    rw [← hp2]
    simp [hsid]
  rw [hleft, hright]
  rw [List.nil_append]

theorem breakdownsFor_summaryId (s : MemStorage) (sid : Nat) :
    ∀ b ∈ breakdownsFor s sid, b.summaryId = sid := by
  intro b hb
  unfold breakdownsFor at hb
  rw [List.mem_filter] at hb
  exact beq_iff_eq.mp hb.2

/-! ## The per-category expense map as a pure function -/

theorem seeded_eq : categories.foldl (fun mp c => jsStrSet mp c 0) []
    = categories.map (fun c => (c, (0 : Rat))) := by decide

theorem jsStrGet_map (f : String → Rat) :
    ∀ (l : List String) (k : String), k ∈ l →
      jsStrGet (l.map (fun c => (c, f c))) k = some (f k) := by
  intro l
  induction l with
  | nil => intro k hk; exact absurd hk (List.not_mem_nil k)
  | cons c rest ih =>
    intro k hk
    unfold jsStrGet
    simp only [List.map_cons]
    cases hb : (c == k)
    · rw [List.find?_cons_of_neg _ (by simpa using hb)]
      rcases List.mem_cons.mp hk with h1 | h2
      · rw [h1] at hb
        simp at hb
      · have := ih k h2
        unfold jsStrGet at this
        exact this
    · rw [List.find?_cons_of_pos _ (by simpa using hb)]
      rw [beq_iff_eq] at hb
      rw [hb]
      rfl

theorem jsStrSet_map (f : String → Rat) (l : List String) (k : String) (v : Rat)
    (hk : k ∈ l) :
    jsStrSet (l.map (fun c => (c, f c))) k v
      = l.map (fun c => (c, if c == k then v else f c)) := by
  have hany : (l.map (fun c => (c, f c))).any (fun p => p.1 == k) = true := by
    rw [List.any_eq_true]
    exact ⟨(k, f k), List.mem_map.mpr ⟨k, hk, rfl⟩, beq_self_eq_true k⟩
  simp only [jsStrSet, hany, if_true]
  rw [List.map_map]
  apply List.map_congr_left
  intro c _
  simp only [Function.comp]
  cases hb : (c == k)
  · simp [hb]
  · rw [beq_iff_eq] at hb
    subst hb
    simp

theorem catExpAux_cons (c : String) (t : Transaction) (ts : List Transaction) :
    catExpAux c (t :: ts)
      = (if t.category == c then mathAbs t.amount else 0) + catExpAux c ts := by
  unfold catExpAux
  rw [List.filter_cons]
  cases hb : (t.category == c)
  · simp [hb]
  · simp [hb]

theorem expMap_fold (ets : List Transaction) :
    ∀ (f : String → Rat) (l : List String), (∀ t ∈ ets, t.category ∈ l) →
      ets.foldl (fun mp t => jsStrSet mp t.category
          (qAdd ((jsStrGet mp t.category).getD 0) (mathAbs t.amount)))
          (l.map (fun c => (c, f c)))
        = l.map (fun c => (c, f c + catExpAux c ets)) := by
  induction ets with
  | nil =>
    intro f l _
    simp only [List.foldl_nil]
    apply List.map_congr_left
    intro c _
    unfold catExpAux
    simp
  | cons t rest ih =>
    intro f l hmem
    rw [List.foldl_cons]
    rw [jsStrGet_map f l t.category (hmem t (List.mem_cons_self t rest))]
    simp only [Option.getD_some]
    rw [jsStrSet_map f l t.category _ (hmem t (List.mem_cons_self t rest))]
    have hmc : l.map (fun c => (c, if c == t.category
          then qAdd (f t.category) (mathAbs t.amount) else f c))
        = l.map (fun c =>
            (c, (fun c0 => f c0 + (if t.category == c0 then mathAbs t.amount else 0)) c)) := by
      apply List.map_congr_left
      intro c _
      cases hb : (c == t.category)
      · have hb2 : (t.category == c) = false := by
          rw [beq_eq_false_iff_ne] at hb ⊢
          exact fun h => hb h.symm
        simp [hb, hb2]
      · rw [beq_iff_eq] at hb
        subst hb
        simp [qAdd_eq]
    rw [hmc]
    rw [ih _ l (fun t0 ht0 => hmem t0 (List.mem_cons_of_mem t ht0))]
    apply List.map_congr_left
    intro c _
    rw [catExpAux_cons]
    simp only [Prod.mk.injEq, true_and]
    ring

theorem catExpense_eq_aux (c : String) (ts : List Transaction) :
    catExpense c ts = catExpAux c (ts.filter (fun t => t.type == "expense")) := by
  unfold catExpense catExpAux
  rw [List.filter_filter]
  apply congrArg
  apply congrArg
  apply List.filter_congr
  intro t _
  rw [Bool.and_comm]

theorem expensesByCategory_eq (txns : List Transaction)
    (hcat : ∀ t ∈ txns, t.type = "expense" → t.category ∈ categories) :
    expensesByCategory txns = categories.map (fun c => (c, catExpense c txns)) := by
  unfold expensesByCategory
  rw [seeded_eq]
  have hmem : ∀ t ∈ txns.filter (fun t => t.type == "expense"), t.category ∈ categories := by
    intro t ht
    rw [List.mem_filter] at ht
    exact hcat t ht.1 (beq_iff_eq.mp ht.2)
  rw [expMap_fold _ _ _ hmem]
  apply List.map_congr_left
  intro c _
  rw [catExpense_eq_aux]
  simp

theorem breakdownPayloads_proj (txns : List Transaction)
    (hcat : ∀ t ∈ txns, t.type = "expense" → t.category ∈ categories) :
    (breakdownPayloads txns).map (fun b => (b.category, b.amount, b.percentage))
      = (categories.filter (fun c => decide (0 < catExpense c txns))).map
          (fun c => (c, catExpense c txns,
            catExpense c txns / totalExpensesOf txns * 100)) := by
  unfold breakdownPayloads
  rw [expensesByCategory_eq txns hcat]
  rw [List.filter_map, List.map_map, List.map_map]
  have hfil : categories.filter
        ((fun p : String × Rat => decide (0 < p.2)) ∘ fun c => (c, catExpense c txns))
      = categories.filter (fun c => decide (0 < catExpense c txns)) := by
    apply List.filter_congr
    intro c _
    rfl
  rw [hfil]
  apply List.map_congr_left
  intro c _
  simp only [Function.comp]
  rw [qMul_eq, qDiv_eq]


theorem createOrUpdate_update_path (s : MemStorage) (now uid : Nat)
    (d : InsertMonthlySummary) (ex : MonthlySummary)
    (hex : getMonthlySummaryByMonth s uid d.year d.month = some ex) :
    (createOrUpdateMonthlySummary s now uid d).1
      = { ex with
          year := d.year
          month := d.month
          totalIncome := d.totalIncome
          totalExpenses := d.totalExpenses
          netBalance := d.netBalance
          lastUpdated := now } := by
  unfold createOrUpdateMonthlySummary
  rw [hex]

/-- Master characterization of a recompute that produced a summary:
field values, frame conditions, preserved well-formedness, visibility of
the upserted summary, the update-path relation to a previously stored
summary, and the exact stored breakdown set. -/
theorem gen_master (s : MemStorage) (now uid y m : Nat)
    (hwf : WF s)
    (hcat : ∀ t ∈ getTransactionsByMonth s uid y m, t.type = "expense" →
      t.category ∈ categories)
    (sum : MonthlySummary) (s' : MemStorage)
    (heq : generateMonthlySummary s now uid y m = (some sum, s')) :
    sum.year = y ∧ sum.month = m ∧ sum.userId = uid ∧ sum.lastUpdated = now ∧
    sum.totalIncome = totalIncomeOf (getTransactionsByMonth s uid y m) ∧
    sum.totalExpenses = totalExpensesOf (getTransactionsByMonth s uid y m) ∧
    sum.netBalance = sum.totalIncome - sum.totalExpenses ∧
    s'.transactions = s.transactions ∧
    WF s' ∧
    getMonthlySummaryByMonth s' uid y m = some sum ∧
    (∀ ex, getMonthlySummaryByMonth s uid y m = some ex →
      sum = { ex with
              year := y
              month := m
              totalIncome := totalIncomeOf (getTransactionsByMonth s uid y m)
              totalExpenses := totalExpensesOf (getTransactionsByMonth s uid y m)
              netBalance := qSub (totalIncomeOf (getTransactionsByMonth s uid y m))
                (totalExpensesOf (getTransactionsByMonth s uid y m))
              lastUpdated := now }) ∧
    (∀ b ∈ breakdownsFor s' sum.id, b.summaryId = sum.id) ∧
    (breakdownsFor s' sum.id).map (fun b => (b.category, b.amount, b.percentage))
      = (categories.filter
            (fun c => decide (0 < catExpense c (getTransactionsByMonth s uid y m)))).map
          (fun c => (c, catExpense c (getTransactionsByMonth s uid y m),
            catExpense c (getTransactionsByMonth s uid y m)
              / totalExpensesOf (getTransactionsByMonth s uid y m) * 100)) := by
  obtain ⟨hwfT, hwfS, hwfB⟩ := hwf
  have hne : (getTransactionsByMonth s uid y m).isEmpty = false := by
    cases h : (getTransactionsByMonth s uid y m).isEmpty
    · rfl
    · simp only [generateMonthlySummary, h, if_true] at heq
      exact absurd (congrArg Prod.fst heq) (by simp)
  have hgen : generateMonthlySummary s now uid y m
      = (some (createOrUpdateMonthlySummary s now uid
      { year := y, month := m, totalIncome := totalIncomeOf (getTransactionsByMonth s uid y m), totalExpenses := totalExpensesOf (getTransactionsByMonth s uid y m), netBalance := qSub (totalIncomeOf (getTransactionsByMonth s uid y m)) (totalExpensesOf (getTransactionsByMonth s uid y m)) }).1, (updateCategoryBreakdowns (createOrUpdateMonthlySummary s now uid
      { year := y, month := m, totalIncome := totalIncomeOf (getTransactionsByMonth s uid y m), totalExpenses := totalExpensesOf (getTransactionsByMonth s uid y m), netBalance := qSub (totalIncomeOf (getTransactionsByMonth s uid y m)) (totalExpensesOf (getTransactionsByMonth s uid y m)) }).2 (createOrUpdateMonthlySummary s now uid
      { year := y, month := m, totalIncome := totalIncomeOf (getTransactionsByMonth s uid y m), totalExpenses := totalExpensesOf (getTransactionsByMonth s uid y m), netBalance := qSub (totalIncomeOf (getTransactionsByMonth s uid y m)) (totalExpensesOf (getTransactionsByMonth s uid y m)) }).1.id (breakdownPayloads (getTransactionsByMonth s uid y m))).2) := by
    simp only [generateMonthlySummary, hne, Bool.false_eq_true, if_false]
  rw [hgen] at heq
  injection heq with h1 h2
  injection h1 with h1
  subst h1
  subst h2
  have hout := createOrUpdate_out s now uid { year := y, month := m, totalIncome := totalIncomeOf (getTransactionsByMonth s uid y m), totalExpenses := totalExpensesOf (getTransactionsByMonth s uid y m), netBalance := qSub (totalIncomeOf (getTransactionsByMonth s uid y m)) (totalExpensesOf (getTransactionsByMonth s uid y m)) }
  have heff := createOrUpdate_effects s now uid { year := y, month := m, totalIncome := totalIncomeOf (getTransactionsByMonth s uid y m), totalExpenses := totalExpensesOf (getTransactionsByMonth s uid y m), netBalance := qSub (totalIncomeOf (getTransactionsByMonth s uid y m)) (totalExpensesOf (getTransactionsByMonth s uid y m)) }
  have hswf := createOrUpdate_wf s now uid { year := y, month := m, totalIncome := totalIncomeOf (getTransactionsByMonth s uid y m), totalExpenses := totalExpensesOf (getTransactionsByMonth s uid y m), netBalance := qSub (totalIncomeOf (getTransactionsByMonth s uid y m)) (totalExpensesOf (getTransactionsByMonth s uid y m)) } hwfS
  have hlook := gmsb_after_upsert s now uid { year := y, month := m, totalIncome := totalIncomeOf (getTransactionsByMonth s uid y m), totalExpenses := totalExpensesOf (getTransactionsByMonth s uid y m), netBalance := qSub (totalIncomeOf (getTransactionsByMonth s uid y m)) (totalExpensesOf (getTransactionsByMonth s uid y m)) } hwfS
  have hcbwf : mapWF CategoryBreakdown.id (createOrUpdateMonthlySummary s now uid
      { year := y, month := m, totalIncome := totalIncomeOf (getTransactionsByMonth s uid y m), totalExpenses := totalExpensesOf (getTransactionsByMonth s uid y m), netBalance := qSub (totalIncomeOf (getTransactionsByMonth s uid y m)) (totalExpensesOf (getTransactionsByMonth s uid y m)) }).2.categoryBreakdowns
      (createOrUpdateMonthlySummary s now uid
      { year := y, month := m, totalIncome := totalIncomeOf (getTransactionsByMonth s uid y m), totalExpenses := totalExpensesOf (getTransactionsByMonth s uid y m), netBalance := qSub (totalIncomeOf (getTransactionsByMonth s uid y m)) (totalExpensesOf (getTransactionsByMonth s uid y m)) }).2.breakdownId := by
    rw [heff.2.2.1, heff.2.2.2]
    exact hwfB
  have hucb := updateCB_spec (createOrUpdateMonthlySummary s now uid
      { year := y, month := m, totalIncome := totalIncomeOf (getTransactionsByMonth s uid y m), totalExpenses := totalExpensesOf (getTransactionsByMonth s uid y m), netBalance := qSub (totalIncomeOf (getTransactionsByMonth s uid y m)) (totalExpensesOf (getTransactionsByMonth s uid y m)) }).2 (createOrUpdateMonthlySummary s now uid
      { year := y, month := m, totalIncome := totalIncomeOf (getTransactionsByMonth s uid y m), totalExpenses := totalExpensesOf (getTransactionsByMonth s uid y m), netBalance := qSub (totalIncomeOf (getTransactionsByMonth s uid y m)) (totalExpensesOf (getTransactionsByMonth s uid y m)) }).1.id (breakdownPayloads (getTransactionsByMonth s uid y m)) hcbwf
  have hucwf := updateCB_wf (createOrUpdateMonthlySummary s now uid
      { year := y, month := m, totalIncome := totalIncomeOf (getTransactionsByMonth s uid y m), totalExpenses := totalExpensesOf (getTransactionsByMonth s uid y m), netBalance := qSub (totalIncomeOf (getTransactionsByMonth s uid y m)) (totalExpensesOf (getTransactionsByMonth s uid y m)) }).2 (createOrUpdateMonthlySummary s now uid
      { year := y, month := m, totalIncome := totalIncomeOf (getTransactionsByMonth s uid y m), totalExpenses := totalExpensesOf (getTransactionsByMonth s uid y m), netBalance := qSub (totalIncomeOf (getTransactionsByMonth s uid y m)) (totalExpensesOf (getTransactionsByMonth s uid y m)) }).1.id (breakdownPayloads (getTransactionsByMonth s uid y m)) hcbwf
  have hbfor := updateCB_breakdownsFor (createOrUpdateMonthlySummary s now uid
      { year := y, month := m, totalIncome := totalIncomeOf (getTransactionsByMonth s uid y m), totalExpenses := totalExpensesOf (getTransactionsByMonth s uid y m), netBalance := qSub (totalIncomeOf (getTransactionsByMonth s uid y m)) (totalExpensesOf (getTransactionsByMonth s uid y m)) }).2 (createOrUpdateMonthlySummary s now uid
      { year := y, month := m, totalIncome := totalIncomeOf (getTransactionsByMonth s uid y m), totalExpenses := totalExpensesOf (getTransactionsByMonth s uid y m), netBalance := qSub (totalIncomeOf (getTransactionsByMonth s uid y m)) (totalExpensesOf (getTransactionsByMonth s uid y m)) }).1.id (breakdownPayloads (getTransactionsByMonth s uid y m)) hcbwf
  refine ⟨hout.1, hout.2.1, hout.2.2.2.2.2.2, hout.2.2.2.2.2.1, hout.2.2.1,
    hout.2.2.2.1, ?_, ?_, ⟨?_, ?_, ?_⟩, ?_, ?_, ?_, ?_⟩
  · rw [hout.2.2.2.2.1, hout.2.2.1, hout.2.2.2.1]
    exact qSub_eq _ _
  · rw [hucb.2.2.1, heff.1]
  · rw [hucb.2.2.1, heff.1, hucb.2.2.2.2.1, heff.2.1]
    exact hwfT
  · rw [hucb.2.2.2.1, hucb.2.2.2.2.2]
    exact hswf
  · exact hucwf
  · rw [gmsb_congr (createOrUpdateMonthlySummary s now uid
      { year := y, month := m, totalIncome := totalIncomeOf (getTransactionsByMonth s uid y m), totalExpenses := totalExpensesOf (getTransactionsByMonth s uid y m), netBalance := qSub (totalIncomeOf (getTransactionsByMonth s uid y m)) (totalExpensesOf (getTransactionsByMonth s uid y m)) }).2 (updateCategoryBreakdowns (createOrUpdateMonthlySummary s now uid
      { year := y, month := m, totalIncome := totalIncomeOf (getTransactionsByMonth s uid y m), totalExpenses := totalExpensesOf (getTransactionsByMonth s uid y m), netBalance := qSub (totalIncomeOf (getTransactionsByMonth s uid y m)) (totalExpensesOf (getTransactionsByMonth s uid y m)) }).2 (createOrUpdateMonthlySummary s now uid
      { year := y, month := m, totalIncome := totalIncomeOf (getTransactionsByMonth s uid y m), totalExpenses := totalExpensesOf (getTransactionsByMonth s uid y m), netBalance := qSub (totalIncomeOf (getTransactionsByMonth s uid y m)) (totalExpensesOf (getTransactionsByMonth s uid y m)) }).1.id (breakdownPayloads (getTransactionsByMonth s uid y m))).2 uid y m hucb.2.2.2.1]
    exact hlook
  · intro ex hex
    exact createOrUpdate_update_path s now uid { year := y, month := m, totalIncome := totalIncomeOf (getTransactionsByMonth s uid y m), totalExpenses := totalExpensesOf (getTransactionsByMonth s uid y m), netBalance := qSub (totalIncomeOf (getTransactionsByMonth s uid y m)) (totalExpensesOf (getTransactionsByMonth s uid y m)) } ex hex
  · exact breakdownsFor_summaryId (updateCategoryBreakdowns (createOrUpdateMonthlySummary s now uid
      { year := y, month := m, totalIncome := totalIncomeOf (getTransactionsByMonth s uid y m), totalExpenses := totalExpensesOf (getTransactionsByMonth s uid y m), netBalance := qSub (totalIncomeOf (getTransactionsByMonth s uid y m)) (totalExpensesOf (getTransactionsByMonth s uid y m)) }).2 (createOrUpdateMonthlySummary s now uid
      { year := y, month := m, totalIncome := totalIncomeOf (getTransactionsByMonth s uid y m), totalExpenses := totalExpensesOf (getTransactionsByMonth s uid y m), netBalance := qSub (totalIncomeOf (getTransactionsByMonth s uid y m)) (totalExpensesOf (getTransactionsByMonth s uid y m)) }).1.id (breakdownPayloads (getTransactionsByMonth s uid y m))).2 (createOrUpdateMonthlySummary s now uid
      { year := y, month := m, totalIncome := totalIncomeOf (getTransactionsByMonth s uid y m), totalExpenses := totalExpensesOf (getTransactionsByMonth s uid y m), netBalance := qSub (totalIncomeOf (getTransactionsByMonth s uid y m)) (totalExpensesOf (getTransactionsByMonth s uid y m)) }).1.id
  · rw [hbfor]
    rw [mkBreakdownRows_values_proj _ _ _]
    exact breakdownPayloads_proj (getTransactionsByMonth s uid y m) hcat


/-! ## Sum lemmas for the percentage invariant -/

theorem mathAbs_nonneg (q : Rat) : 0 ≤ mathAbs q := by
  unfold mathAbs
  split
  · linarith
  · linarith

theorem catExpense_nonneg (c : String) (ts : List Transaction) :
    0 ≤ catExpense c ts := by
  apply List.sum_nonneg
  intro x hx
  obtain ⟨t, _, ht2⟩ := List.mem_map.mp hx
  rw [← ht2]
  exact mathAbs_nonneg _

theorem sum_filter_pos (f : String → Rat) :
    ∀ (l : List String), (∀ c ∈ l, 0 ≤ f c) →
      ((l.filter (fun c => decide (0 < f c))).map f).sum = (l.map f).sum := by
  intro l
  induction l with
  | nil => intro _; simp
  | cons c rest ih =>
    intro h
    rw [List.filter_cons]
    cases hd : decide (0 < f c)
    · have hz : f c = 0 := by
        have h1 := h c (List.mem_cons_self c rest)
        have h2 : ¬(0 < f c) := of_decide_eq_false hd
        linarith
      simp only [Bool.false_eq_true, if_false, List.map_cons, List.sum_cons]
      rw [ih (fun c0 hc0 => h c0 (List.mem_cons_of_mem c hc0)), hz]
      ring
    · simp only [if_true, List.map_cons, List.sum_cons]
      rw [ih (fun c0 hc0 => h c0 (List.mem_cons_of_mem c hc0))]

theorem sum_if_single (a : Rat) (g : String → Rat) (c0 : String) :
    ∀ (l : List String), l.Nodup → c0 ∈ l →
      (l.map (fun c => (if c0 == c then a else 0) + g c)).sum = a + (l.map g).sum := by
  intro l
  induction l with
  | nil => intro _ hc0; exact absurd hc0 (List.not_mem_nil c0)
  | cons c rest ih =>
    intro hnd hc0
    rw [List.nodup_cons] at hnd
    simp only [List.map_cons, List.sum_cons]
    cases hb : (c0 == c)
    · rw [beq_eq_false_iff_ne] at hb
      have hc0' : c0 ∈ rest := by
        rcases List.mem_cons.mp hc0 with h1 | h2
        · exact absurd h1 hb
        · exact h2
      rw [ih hnd.2 hc0']
      simp only [Bool.false_eq_true, if_false]
      ring
    · rw [beq_iff_eq] at hb
      have hnot : ∀ c1 ∈ rest, ((if c0 == c1 then a else 0) + g c1) = g c1 := by
        intro c1 hc1
        have hne : (c0 == c1) = false := by
          rw [beq_eq_false_iff_ne]
          intro hcontra
          rw [← hb] at hnd
          exact hnd.1 (hcontra ▸ hc1)
        rw [hne]
        simp
      rw [List.map_congr_left hnot]
      simp only [if_true]
      ring

theorem catExpense_cons (c : String) (t : Transaction) (ts : List Transaction) :
    catExpense c (t :: ts)
      = (if t.type == "expense" && t.category == c then mathAbs t.amount else 0)
          + catExpense c ts := by
  unfold catExpense
  rw [List.filter_cons]
  cases hb : (t.type == "expense" && t.category == c) <;> simp [hb]

theorem totalExpensesOf_cons (t : Transaction) (ts : List Transaction) :
    totalExpensesOf (t :: ts)
      = (if t.type == "expense" then mathAbs t.amount else 0) + totalExpensesOf ts := by
  rw [totalExpensesOf_eq_sum, totalExpensesOf_eq_sum, List.filter_cons]
  cases hb : (t.type == "expense") <;> simp [hb]

theorem sum_catExpense (l : List String) (hnd : l.Nodup) :
    ∀ (ts : List Transaction), (∀ t ∈ ts, t.type = "expense" → t.category ∈ l) →
      (l.map (fun c => catExpense c ts)).sum = totalExpensesOf ts := by
  intro ts
  induction ts with
  | nil =>
    intro _
    rw [totalExpensesOf_eq_sum]
    have hz : ∀ c ∈ l, catExpense c ([] : List Transaction) = (fun _ => (0 : Rat)) c :=
      fun c _ => rfl
    rw [List.map_congr_left hz]
    simp
  | cons t ts ih =>
    intro hmem
    have hstep : ∀ c ∈ l, catExpense c (t :: ts)
        = (fun c => (if t.type == "expense" && t.category == c then mathAbs t.amount else 0)
            + catExpense c ts) c := fun c _ => catExpense_cons c t ts
    rw [List.map_congr_left hstep, totalExpensesOf_cons]
    by_cases hty : t.type = "expense"
    · have htyb : (t.type == "expense") = true := beq_iff_eq.mpr hty
      have hsimp : ∀ c ∈ l,
          ((if t.type == "expense" && t.category == c then mathAbs t.amount else 0)
            + catExpense c ts)
          = (fun c => (if t.category == c then mathAbs t.amount else 0)
              + catExpense c ts) c := by
        intro c _
        rw [htyb, Bool.true_and]
      rw [List.map_congr_left hsimp]
      rw [sum_if_single (mathAbs t.amount) (fun c => catExpense c ts) t.category l hnd
        (hmem t (List.mem_cons_self t ts) hty)]
      rw [ih (fun t0 ht0 => hmem t0 (List.mem_cons_of_mem t ht0))]
      rw [htyb]
      simp
    · have htyb : (t.type == "expense") = false := by
        rw [beq_eq_false_iff_ne]
        exact hty
      have hsimp : ∀ c ∈ l,
          ((if t.type == "expense" && t.category == c then mathAbs t.amount else 0)
            + catExpense c ts)
          = (fun c => catExpense c ts) c := by
        intro c _
        rw [htyb, Bool.false_and]
        simp
      rw [List.map_congr_left hsimp]
      rw [ih (fun t0 ht0 => hmem t0 (List.mem_cons_of_mem t ht0))]
      rw [htyb]
      simp


/-! ## Recompute helper facts -/

theorem gen_empty_eq (s : MemStorage) (now uid y m : Nat)
    (h : getTransactionsByMonth s uid y m = []) :
    generateMonthlySummary s now uid y m = (none, s) := by
  simp [generateMonthlySummary, h]

theorem gen_none_imp_empty (s : MemStorage) (now uid y m : Nat)
    (h : (generateMonthlySummary s now uid y m).1 = none) :
    getTransactionsByMonth s uid y m = [] := by
  by_cases hE : getTransactionsByMonth s uid y m = []
  · exact hE
  · exfalso
    have hne : (getTransactionsByMonth s uid y m).isEmpty = false := by
      cases hb : (getTransactionsByMonth s uid y m).isEmpty
      · rfl
      · exact absurd (List.isEmpty_iff.mp hb) hE
    simp only [generateMonthlySummary, hne, Bool.false_eq_true, if_false] at h
    exact absurd h (by simp)

/-! ## Claim theorems, aggregation group -/

/-- C5: after a recompute over a nonempty transaction set, the breakdown
rows stored for the produced summary have pairwise distinct categories,
and their (category, amount, percentage) values are exactly those of the
categories with strictly positive expense total in the month, so no row
from an earlier recompute of the same summary survives. -/
theorem gen_breakdowns_exact (s : MemStorage) (now uid y m : Nat)
    (hwf : WF s)
    (hcat : ∀ t ∈ getTransactionsByMonth s uid y m, t.type = "expense" →
      t.category ∈ categories)
    (sum : MonthlySummary) (s' : MemStorage)
    (heq : generateMonthlySummary s now uid y m = (some sum, s')) :
    ((breakdownsFor s' sum.id).map (fun b => b.category)).Nodup ∧
    (breakdownsFor s' sum.id).map (fun b => (b.category, b.amount, b.percentage))
      = (categories.filter (fun c => decide (0 < catExpense c (getTransactionsByMonth s uid y m)))).map (fun c => (c, catExpense c (getTransactionsByMonth s uid y m), catExpense c (getTransactionsByMonth s uid y m) / totalExpensesOf (getTransactionsByMonth s uid y m) * 100)) := by
  obtain ⟨a1, a2, a3, a4, a5, a6, a7, a8, a9, a10, a11, a12, a13⟩ :=
    gen_master s now uid y m hwf hcat sum s' heq
  refine ⟨?_, a13⟩
  have hc := congrArg (List.map (fun x : String × Rat × Rat => x.1)) a13
  rw [List.map_map, List.map_map] at hc
  have e1 : (breakdownsFor s' sum.id).map
      ((fun x : String × Rat × Rat => x.1) ∘ (fun b => (b.category, b.amount, b.percentage)))
        = (breakdownsFor s' sum.id).map (fun b => b.category) :=
    List.map_congr_left (fun b _ => rfl)
  have e2 : (categories.filter (fun c => decide (0 < catExpense c (getTransactionsByMonth s uid y m)))).map
      ((fun x : String × Rat × Rat => x.1) ∘ (fun c => (c, catExpense c (getTransactionsByMonth s uid y m), catExpense c (getTransactionsByMonth s uid y m) / totalExpensesOf (getTransactionsByMonth s uid y m) * 100)))
        = (categories.filter (fun c => decide (0 < catExpense c (getTransactionsByMonth s uid y m)))).map (fun c => c) :=
    List.map_congr_left (fun c _ => rfl)
  rw [e1, e2, List.map_id' (categories.filter (fun c => decide (0 < catExpense c (getTransactionsByMonth s uid y m))))] at hc
  rw [hc]
  exact List.Nodup.filter _ (by decide)

/-- C6: for a recompute whose produced summary has strictly positive
totalExpenses, the stored breakdown amounts sum exactly to totalExpenses
and the stored percentages sum exactly to 100 (the rational model
computes the percentages exactly, so no rounding tolerance is needed). -/
theorem gen_percentage_invariant (s : MemStorage) (now uid y m : Nat)
    (hwf : WF s)
    (hcat : ∀ t ∈ getTransactionsByMonth s uid y m, t.type = "expense" →
      t.category ∈ categories)
    (sum : MonthlySummary) (s' : MemStorage)
    (heq : generateMonthlySummary s now uid y m = (some sum, s'))
    (hpos : 0 < sum.totalExpenses) :
    ((breakdownsFor s' sum.id).map (fun b => b.amount)).sum = sum.totalExpenses ∧
    ((breakdownsFor s' sum.id).map (fun b => b.percentage)).sum = 100 := by
  obtain ⟨a1, a2, a3, a4, a5, a6, a7, a8, a9, a10, a11, a12, a13⟩ :=
    gen_master s now uid y m hwf hcat sum s' heq
  have hamt : (breakdownsFor s' sum.id).map (fun b => b.amount)
      = (categories.filter (fun c => decide (0 < catExpense c (getTransactionsByMonth s uid y m)))).map (fun c => catExpense c (getTransactionsByMonth s uid y m)) := by
    have hc := congrArg (List.map (fun x : String × Rat × Rat => x.2.1)) a13
    rw [List.map_map, List.map_map] at hc
    have e1 : (breakdownsFor s' sum.id).map
        ((fun x : String × Rat × Rat => x.2.1) ∘ (fun b => (b.category, b.amount, b.percentage)))
          = (breakdownsFor s' sum.id).map (fun b => b.amount) :=
      List.map_congr_left (fun b _ => rfl)
    have e2 : (categories.filter (fun c => decide (0 < catExpense c (getTransactionsByMonth s uid y m)))).map
        ((fun x : String × Rat × Rat => x.2.1) ∘ (fun c => (c, catExpense c (getTransactionsByMonth s uid y m), catExpense c (getTransactionsByMonth s uid y m) / totalExpensesOf (getTransactionsByMonth s uid y m) * 100)))
          = (categories.filter (fun c => decide (0 < catExpense c (getTransactionsByMonth s uid y m)))).map (fun c => catExpense c (getTransactionsByMonth s uid y m)) :=
      List.map_congr_left (fun c _ => rfl)
    rw [e1, e2] at hc
    exact hc
  have hper : (breakdownsFor s' sum.id).map (fun b => b.percentage)
      = (categories.filter (fun c => decide (0 < catExpense c (getTransactionsByMonth s uid y m)))).map
          (fun c => catExpense c (getTransactionsByMonth s uid y m) / totalExpensesOf (getTransactionsByMonth s uid y m) * 100) := by
    have hc := congrArg (List.map (fun x : String × Rat × Rat => x.2.2)) a13
    rw [List.map_map, List.map_map] at hc
    have e1 : (breakdownsFor s' sum.id).map
        ((fun x : String × Rat × Rat => x.2.2) ∘ (fun b => (b.category, b.amount, b.percentage)))
          = (breakdownsFor s' sum.id).map (fun b => b.percentage) :=
      List.map_congr_left (fun b _ => rfl)
    have e2 : (categories.filter (fun c => decide (0 < catExpense c (getTransactionsByMonth s uid y m)))).map
        ((fun x : String × Rat × Rat => x.2.2) ∘ (fun c => (c, catExpense c (getTransactionsByMonth s uid y m), catExpense c (getTransactionsByMonth s uid y m) / totalExpensesOf (getTransactionsByMonth s uid y m) * 100)))
          = (categories.filter (fun c => decide (0 < catExpense c (getTransactionsByMonth s uid y m)))).map
              (fun c => catExpense c (getTransactionsByMonth s uid y m) / totalExpensesOf (getTransactionsByMonth s uid y m) * 100) :=
      List.map_congr_left (fun c _ => rfl)
    rw [e1, e2] at hc
    exact hc
  have hsumcat : ((categories.filter (fun c => decide (0 < catExpense c (getTransactionsByMonth s uid y m)))).map (fun c => catExpense c (getTransactionsByMonth s uid y m))).sum
      = totalExpensesOf (getTransactionsByMonth s uid y m) := by
    rw [sum_filter_pos (fun c => catExpense c (getTransactionsByMonth s uid y m)) categories
      (fun c _ => catExpense_nonneg c (getTransactionsByMonth s uid y m))]
    exact sum_catExpense categories (by decide) (getTransactionsByMonth s uid y m) hcat
  constructor
  · rw [hamt, a6, hsumcat]
  · rw [hper]
    have hT : totalExpensesOf (getTransactionsByMonth s uid y m) ≠ 0 := by
      rw [a6] at hpos
      exact (ne_of_lt hpos).symm
    have hstep : ∀ c ∈ categories.filter (fun c => decide (0 < catExpense c (getTransactionsByMonth s uid y m))),
        catExpense c (getTransactionsByMonth s uid y m) / totalExpensesOf (getTransactionsByMonth s uid y m) * 100
          = (fun c => catExpense c (getTransactionsByMonth s uid y m) * (100 / totalExpensesOf (getTransactionsByMonth s uid y m))) c := by
      intro c _
      ring
    rw [List.map_congr_left hstep]
    rw [List.sum_map_mul_right, hsumcat]
    field_simp


/-- C3 (counterexample): recomputing March twice in a row on the demo
store replaces the single Food breakdown row by a row with a fresh
generated id (2, then 3), so the stored breakdown rows of the two calls
are not identical even though breakdown rows carry no timestamp field:
the results differ in more than the summary timestamp. -/
theorem gen_twice_breakdown_rows_differ :
    (breakdownsFor sB1 1).map (fun b => b.id) = [2] ∧
    (breakdownsFor sB2 1).map (fun b => b.id) = [3] ∧
    breakdownsFor sB2 1 ≠ breakdownsFor sB1 1 := by
  refine ⟨by decide, by decide, by decide⟩

/-- C3 (amended): recomputing twice in a row with no intervening change
yields the same summary except for its timestamp, and stored breakdown
rows with identical values (summary reference, category, amount,
percentage), differing only in their generated row ids. -/
theorem gen_idempotent (s : MemStorage) (n1 n2 uid y m : Nat)
    (hwf : WF s)
    (hcat : ∀ t ∈ getTransactionsByMonth s uid y m, t.type = "expense" →
      t.category ∈ categories)
    (r1 : Option MonthlySummary) (s1 : MemStorage)
    (r2 : Option MonthlySummary) (s2 : MemStorage)
    (h1 : generateMonthlySummary s n1 uid y m = (r1, s1))
    (h2 : generateMonthlySummary s1 n2 uid y m = (r2, s2)) :
    (r1 = none → r2 = none ∧ s2 = s1) ∧
    (∀ m1, r1 = some m1 →
      r2 = some { m1 with lastUpdated := n2 } ∧
      (breakdownsFor s2 m1.id).map bdValues = (breakdownsFor s1 m1.id).map bdValues) := by
  constructor
  · intro hr1
    rw [hr1] at h1
    have hempty : getTransactionsByMonth s uid y m = [] :=
      gen_none_imp_empty s n1 uid y m (by rw [h1])
    have he1 := gen_empty_eq s n1 uid y m hempty
    rw [h1] at he1
    injection he1 with _ hs1
    have hempty1 : getTransactionsByMonth s1 uid y m = [] := by
      rw [gtbm_congr s s1 uid y m (by rw [← hs1])]
      exact hempty
    have he2 := gen_empty_eq s1 n2 uid y m hempty1
    rw [h2] at he2
    injection he2 with hr2 hs2
    exact ⟨hr2, hs2⟩
  · intro m1 hr1
    rw [hr1] at h1
    obtain ⟨a1, a2, a3, a4, a5, a6, a7, a8, a9, a10, a11, a12, a13⟩ :=
      gen_master s n1 uid y m hwf hcat m1 s1 h1
    have htx : getTransactionsByMonth s1 uid y m = getTransactionsByMonth s uid y m :=
      gtbm_congr s s1 uid y m a8
    have hcat1 : ∀ t ∈ getTransactionsByMonth s1 uid y m, t.type = "expense" →
        t.category ∈ categories := by
      rw [htx]
      exact hcat
    cases hr2 : r2 with
    | none =>
      exfalso
      rw [hr2] at h2
      have hemp := gen_none_imp_empty s1 n2 uid y m (by rw [h2])
      rw [htx] at hemp
      have := gen_empty_eq s n1 uid y m hemp
      rw [this] at h1
      exact absurd (congrArg Prod.fst h1) (by simp)
    | some m2 =>
      rw [hr2] at h2
      obtain ⟨b1, b2, b3, b4, b5, b6, b7, b8, b9, b10, b11, b12, b13⟩ :=
        gen_master s1 n2 uid y m a9 hcat1 m2 s2 h2
      have hm2eq := b11 m1 a10
      rw [htx] at hm2eq
      have hm2m1 : m2 = { m1 with lastUpdated := n2 } := by
        rw [hm2eq, qSub_eq, ← a5, ← a6, ← a7, ← a1, ← a2]
      have hm2id : m2.id = m1.id := by rw [hm2m1]
      refine ⟨by rw [hm2m1], ?_⟩
      rw [htx, hm2id] at b13
      have htrip : (breakdownsFor s2 m1.id).map
          (fun b => (b.category, b.amount, b.percentage))
            = (breakdownsFor s1 m1.id).map
              (fun b => (b.category, b.amount, b.percentage)) := by
        rw [b13, a13]
      rw [hm2id] at b12
      have e2 : (breakdownsFor s2 m1.id).map bdValues
          = (breakdownsFor s2 m1.id).map
              ((fun x : String × Rat × Rat => (m1.id, x))
                ∘ (fun b => (b.category, b.amount, b.percentage))) := by
        apply List.map_congr_left
        intro b hb
        have := b12 b hb
        unfold bdValues
        simp only [Function.comp]
        rw [this]
      have e1 : (breakdownsFor s1 m1.id).map bdValues
          = (breakdownsFor s1 m1.id).map
              ((fun x : String × Rat × Rat => (m1.id, x))
                ∘ (fun b => (b.category, b.amount, b.percentage))) := by
        apply List.map_congr_left
        intro b hb
        have := a12 b hb
        unfold bdValues
        simp only [Function.comp]
        rw [this]
      rw [e1, e2, ← List.map_map, ← List.map_map, htrip]


/-- Witness for C3's amended statement on the demo scenario. -/
theorem gen_idempotent_witness :
    (some ({ sumMar1 with lastUpdated := 11 }) : Option MonthlySummary)
      = some { sumMar1 with lastUpdated := 11 } ∧
    (breakdownsFor sB2 sumMar1.id).map bdValues
      = (breakdownsFor sB1 sumMar1.id).map bdValues :=
  (gen_idempotent sB 10 11 1 2024 3 (by decide) (by decide)
    (some sumMar1) sB1 (some { sumMar1 with lastUpdated := 11 }) sB2
    (Prod.ext (by decide) rfl) (Prod.ext (by decide) rfl)).2 sumMar1 rfl

/-- Witness for C5 on the demo scenario. -/
theorem gen_breakdowns_exact_witness :
    ((breakdownsFor sB1 sumMar1.id).map (fun b => b.category)).Nodup ∧
    (breakdownsFor sB1 sumMar1.id).map (fun b => (b.category, b.amount, b.percentage))
      = (categories.filter (fun c => decide (0 < catExpense c (getTransactionsByMonth sB 1 2024 3)))).map
          (fun c => (c, catExpense c (getTransactionsByMonth sB 1 2024 3),
            catExpense c (getTransactionsByMonth sB 1 2024 3) / totalExpensesOf (getTransactionsByMonth sB 1 2024 3) * 100)) :=
  gen_breakdowns_exact sB 10 1 2024 3 (by decide) (by decide) sumMar1 sB1
    (Prod.ext (by decide) rfl)

/-- Witness for C6 on the demo scenario. -/
theorem gen_percentage_invariant_witness :
    ((breakdownsFor sB1 sumMar1.id).map (fun b => b.amount)).sum = sumMar1.totalExpenses ∧
    ((breakdownsFor sB1 sumMar1.id).map (fun b => b.percentage)).sum = 100 :=
  gen_percentage_invariant sB 10 1 2024 3 (by decide) (by decide) sumMar1 sB1
    (Prod.ext (by decide) rfl) (by decide)

end FinanceTracker
